import Mathlib

/-!
# paynetcli: the call-site of the paynet client library

A shallow embedding of `cmd/paynetcli/main.go`.  The library `pkg/paynet` and the
generated protobuf package `internal/pb` are not part of the sources at hand, so

* the constants they declare (`paynet.Type*`, `payboxpb.CoinState_*`) are taken as a
  parameter record `Consts`;
* the results of the calls into the library (`NewClient`, `Send`, `Run`) and into the Go
  runtime clock are inputs of the model;
* the effects a function performs are recorded as an explicit, ordered trace.
-/

namespace Paynetcli

/-! ## Go values -/

/-- Go `error` values: the sentinel `context.Canceled`, an error made from a text, and an
error wrapping another one (`fmt.Errorf` with the verb `%w`). -/
inductive GoError where
  | Canceled
  | plain (text : String)
  | wrapped (text : String) (inner : GoError)
  deriving DecidableEq, Repr

/-- Go `errors.Is(err, target)`: `err` is `target` or wraps it, along the chain of
wrapped errors. -/
def errorsIs : GoError → GoError → Bool
  | .wrapped text inner, target =>
      if GoError.wrapped text inner = target then true else errorsIs inner target
  | err, target => decide (err = target)

/-- A message type identifier, `paynet.Type`. -/
abbrev MessageType := Nat

/-- The protobuf enum `payboxpb.CoinState`, an `int32` in the generated code. -/
abbrev CoinState := Int

/-- Names of the eleven `paynet.Type*` constants used by `main.go`. -/
inductive TypeConst where
  | TypeRegisterReq
  | TypeRegisterRsp
  | TypeLoginReq
  | TypeLoginRsp
  | TypePing
  | TypePong
  | TypeCoinCommand
  | TypeCoinAck
  | TypeQueryReq
  | TypeQueryRsp
  | TypeError
  deriving DecidableEq, Repr

/-- The constants of the missing packages that `main.go` refers to: the value of each
`paynet.Type*` identifier and the two named `payboxpb.CoinState` values. -/
structure Consts where
  typeId : TypeConst → MessageType
  COIN_ACCEPTED : CoinState
  COIN_DONE : CoinState

/-! ## Messages of `internal/pb`

Each generated message is modelled with the fields `main.go` names; a message whose fields
are never named there carries them as one uninterpreted list `fields`. -/

structure RegisterReq where
  DeviceSn : String
  Model : String
  Firmware : String
  DevicePubkey : List Nat
  deriving DecidableEq, Repr

structure RegisterRsp where
  fields : List Nat
  deriving DecidableEq, Repr

structure LoginReq where
  DeviceId : String
  Token : String
  Version : String
  deriving DecidableEq, Repr

structure LoginRsp where
  fields : List Nat
  deriving DecidableEq, Repr

structure Ping where
  Timestamp : Nat
  Uptime : Nat
  deriving DecidableEq, Repr

structure Pong where
  fields : List Nat
  deriving DecidableEq, Repr

structure CoinCommand where
  OrderId : Nat
  deriving DecidableEq, Repr

structure CoinAck where
  OrderId : Nat
  State : CoinState
  Progress : Nat
  deriving DecidableEq, Repr

structure QueryReq where
  fields : List Nat
  deriving DecidableEq, Repr

structure QueryRsp where
  fields : List Nat
  deriving DecidableEq, Repr

structure ErrorMsg where
  fields : List Nat
  deriving DecidableEq, Repr

/-- A `proto.Message`: a value of one of the concrete message types. -/
inductive Msg where
  | RegisterReq (m : RegisterReq)
  | RegisterRsp (m : RegisterRsp)
  | LoginReq (m : LoginReq)
  | LoginRsp (m : LoginRsp)
  | Ping (m : Ping)
  | Pong (m : Pong)
  | CoinCommand (m : CoinCommand)
  | CoinAck (m : CoinAck)
  | QueryReq (m : QueryReq)
  | QueryRsp (m : QueryRsp)
  | ErrorMsg (m : ErrorMsg)
  deriving DecidableEq, Repr

/-- The concrete Go type behind a `proto.Message` interface value. -/
inductive Shape where
  | RegisterReq
  | RegisterRsp
  | LoginReq
  | LoginRsp
  | Ping
  | Pong
  | CoinCommand
  | CoinAck
  | QueryReq
  | QueryRsp
  | ErrorMsg
  deriving DecidableEq, Repr

/-- The dynamic type of a message. -/
def Msg.shape : Msg → Shape
  | .RegisterReq _ => .RegisterReq
  | .RegisterRsp _ => .RegisterRsp
  | .LoginReq _ => .LoginReq
  | .LoginRsp _ => .LoginRsp
  | .Ping _ => .Ping
  | .Pong _ => .Pong
  | .CoinCommand _ => .CoinCommand
  | .CoinAck _ => .CoinAck
  | .QueryReq _ => .QueryReq
  | .QueryRsp _ => .QueryRsp
  | .ErrorMsg _ => .ErrorMsg

/-! ## Handler programs

A handler body is a tree of the effects it performs.  A call whose result the body
inspects (`Send`) takes a continuation over that result. -/

/-- The effects of a handler body, in program order. -/
inductive Prog where
  /-- Handler body `return err`. -/
  | ret (err : Option GoError)
  /-- A failed unchecked type assertion `msg.(*T)`: a run-time panic. -/
  | typeAssertFail
  /-- Call `log.Printf(format, arg)`. -/
  | logPrintf (format : String) (arg : Msg) (k : Prog)
  /-- Call `cli.Send(context.Background(), msg, paynet.WithType(withType))`. -/
  | send (msg : Msg) (withType : MessageType) (k : Option GoError → Prog)
  /-- Call `time.Sleep(seconds * time.Second)`. -/
  | sleep (seconds : Nat) (k : Prog)
  /-- Statement `go func() { body }()` followed by the rest of the caller. -/
  | go (body : Prog) (k : Prog)

/-- The `paynet.Context` handed to a handler; no handler of `main.go` reads it. -/
structure Context where
  deriving DecidableEq, Repr

/-- The `*paynet.Client` handle. -/
structure Client where
  deriving DecidableEq, Repr

/-- A `paynet.HandlerFunc`. -/
abbrev Handler := Context → Msg → Prog

/-- Function `handleCoinCommand` of `main.go`. -/
def handleCoinCommand (c : Consts) (_cli : Client) : Handler :=
  fun _ctx msg =>
    match msg with
    | .CoinCommand cmd =>
      .logPrintf "[CLIENT] <- CoinCommand payload=%+v" (.CoinCommand cmd) <|
      let ack : CoinAck := { OrderId := cmd.OrderId, State := c.COIN_ACCEPTED, Progress := 0 }
      .logPrintf "[CLIENT] -> CoinAck (ACCEPTED) payload=%+v" (.CoinAck ack) <|
      .send (.CoinAck ack) (c.typeId .TypeCoinAck) fun err =>
        match err with
        | some e => .ret (some e)
        | none =>
          .go
            (.sleep 2 <|
              let final : CoinAck :=
                { OrderId := cmd.OrderId, State := c.COIN_DONE, Progress := 100 }
              .logPrintf "[CLIENT] -> CoinAck (DONE) payload=%+v" (.CoinAck final) <|
              .send (.CoinAck final) (c.typeId .TypeCoinAck) fun _ => .ret none)
            (.ret none)
    | _ => .typeAssertFail

/-- Function `handleQueryRsp` of `main.go`. -/
def handleQueryRsp : Handler :=
  fun _ctx msg =>
    match msg with
    | .QueryRsp rsp =>
      .logPrintf "[CLIENT] <- QueryRsp payload=%+v" (.QueryRsp rsp) <|
      .ret none
    | _ => .typeAssertFail

/-! ## Running a handler program -/

/-- One observable effect of a run. -/
inductive Event where
  | logPrintf (format : String) (arg : Msg)
  | send (msg : Msg) (withType : MessageType) (result : Option GoError)
  | sleep (seconds : Nat)
  | go
  deriving DecidableEq, Repr

/-- How a body ended. -/
inductive Outcome where
  | returned (err : Option GoError)
  | panicked
  deriving DecidableEq, Repr

/-- The run of one goroutine: its effects in order, how it ended, and the bodies of the
goroutines it started, in the order of their `go` statements. -/
structure Exec where
  events : List Event
  result : Outcome
  spawned : List Prog

/-- Run a body in its own goroutine.  `sendResult i` is what the `i`-th `Send` call of
this goroutine returns; `i` counts the calls made so far. -/
def exec (sendResult : Nat → Option GoError) : Prog → Nat → Exec
  | .ret err, _ => { events := [], result := .returned err, spawned := [] }
  | .typeAssertFail, _ => { events := [], result := .panicked, spawned := [] }
  | .logPrintf format arg k, i =>
      let r := exec sendResult k i
      { r with events := .logPrintf format arg :: r.events }
  | .send msg withType k, i =>
      let r := exec sendResult (k (sendResult i)) (i + 1)
      { r with events := .send msg withType (sendResult i) :: r.events }
  | .sleep seconds k, i =>
      let r := exec sendResult k i
      { r with events := .sleep seconds :: r.events }
  | .go body k, i =>
      let r := exec sendResult k i
      { r with events := .go :: r.events, spawned := body :: r.spawned }

/-- The `Send` calls among a list of events, as (message, type option) pairs. -/
def sends : List Event → List (Msg × MessageType)
  | [] => []
  | .send msg withType _ :: rest => (msg, withType) :: sends rest
  | _ :: rest => sends rest

/-- The complete run of a handler call: the run of the handler itself up to its return,
and the runs of the goroutines it started.  `bgResult j i` is what the `i`-th `Send` of the
`j`-th started goroutine returns. -/
structure HandlerRun where
  handler : Exec
  background : List Exec

/-- Run a handler body and then each goroutine it started. -/
def runHandler (sendResult : Nat → Option GoError) (bgResult : Nat → Nat → Option GoError)
    (p : Prog) : HandlerRun :=
  let h := exec sendResult p 0
  { handler := h
    background := (List.range h.spawned.length).zipWith
      (fun j body => exec (bgResult j) body 0) h.spawned }

/-- All `Send` calls one handler call causes: those of the handler, then those of the
goroutines it started. -/
def HandlerRun.allSends (r : HandlerRun) : List (Msg × MessageType) :=
  sends r.handler.events ++ (r.background.map fun b => sends b.events).flatten

/-! ## The message registry -/

/-- A `paynet.MessageMeta`; the field `Type` is written `Type_`. -/
structure MessageMeta where
  Type_ : MessageType
  Name : String
  Factory : Unit → Msg
  Handler : Option Handler := none

/-- The process-wide registry: the registered entries, oldest first. -/
abbrev Registry := List MessageMeta

/-- Errors of the registry. -/
inductive RegistryError where
  | DuplicateRegistration
  | NotFound
  deriving DecidableEq, Repr

/-- Modelled from the spec: `paynet.Register` is not among the sources.  "`Register(meta)`:
fails with `DuplicateRegistration` if Type or Name already present." -/
def Register (r : Registry) (m : MessageMeta) : Except RegistryError Registry :=
  if r.any (fun x => decide (x.Type_ = m.Type_) || decide (x.Name = m.Name)) then
    .error .DuplicateRegistration
  else
    .ok (r ++ [m])

/-- Modelled from the spec: `paynet.Lookup` is not among the sources.  "`Lookup(type)`:
returns the MessageMeta or `NotFound`." -/
def Lookup (r : Registry) (t : MessageType) : Except RegistryError MessageMeta :=
  match r.find? (fun x => decide (x.Type_ = t)) with
  | some m => .ok m
  | none => .error .NotFound

/-! ## Clock and numeric conversions -/

/-- A reading of `time.Now()`: the wall clock as `UnixMilli()` reports it and the monotonic
clock in nanoseconds. -/
structure Time where
  unixMilli : Int
  mono : Int
  deriving DecidableEq, Repr

/-- Go `time.Second`, a `time.Duration` in nanoseconds. -/
def Second : Int := 1000000000

/-- Go `time.Since(start)` read at `now`: the difference of the monotonic readings. -/
def Since (start now : Time) : Int := now.mono - start.mono

/-- Round a rational to the nearest integer, ties to the even one. -/
def roundHalfEven (q : ℚ) : ℤ :=
  let f := ⌊q⌋
  let r := q - f
  if r < 1 / 2 then f else if 1 / 2 < r then f + 1 else if f % 2 = 0 then f else f + 1

/-- Round a rational to IEEE 754 binary64, round to nearest with ties to even.  A finite
`float64` is modelled by the rational it denotes; the exponent range is not bounded, the
values of this program (between `1e-9` and `1e10`, or zero) being normal numbers. -/
def f64Round (q : ℚ) : ℚ :=
  if q = 0 then 0
  else
    let ulp : ℚ := 2 ^ (Int.log 2 |q| - 52)
    roundHalfEven (q / ulp) * ulp

/-- Go `float64(n)` for an integer `n`. -/
def f64OfInt (n : Int) : ℚ := f64Round n

/-- Go `x + y` on `float64`. -/
def f64Add (x y : ℚ) : ℚ := f64Round (x + y)

/-- Go `x / y` on `float64`. -/
def f64Div (x y : ℚ) : ℚ := f64Round (x / y)

/-- Go `time.Duration.Seconds`:
`sec := d / Second; nsec := d % Second; return float64(sec) + float64(nsec)/1e9`. -/
def DurationSeconds (d : Int) : ℚ :=
  let sec := Int.tdiv d Second
  let nsec := Int.tmod d Second
  f64Add (f64OfInt sec) (f64Div (f64OfInt nsec) 1000000000)

/-- Go `uint32(f)` for a `float64`: the fraction is discarded.  When the truncated value is
out of range the language leaves the result to the implementation; the model keeps its low
32 bits, as the amd64 compiler does. -/
def toUint32 (f : ℚ) : Nat :=
  ((if 0 ≤ f then ⌊f⌋ else ⌈f⌉) % 2 ^ 32).toNat

/-- Go `uint64(n)` for an `int64`: the value modulo `2^64`. -/
def toUint64 (n : Int) : Nat := (n % 2 ^ 64).toNat

/-! ## The client configuration -/

/-- A `paynet.TLSOption`. -/
structure TLSOption where
  CertFile : String
  KeyFile : String
  CAFile : String
  ServerName : String
  deriving DecidableEq, Repr

/-- A `paynet.ClientConfig`.  The heartbeat factory takes the readings of the clock: `now i`
is what the `i`-th call of `time.Now()` during one invocation returns (`time.Since` makes
one such call). -/
structure ClientConfig where
  Addr : String
  TLS : TLSOption
  HeartbeatInterval : Int
  HeartbeatFactory : (Nat → Time) → Msg

/-- A `paynet.LoginFlow`. -/
structure LoginFlow where
  Register : RegisterReq
  Login : LoginReq
  deriving DecidableEq, Repr

/-- The heartbeat factory closure of `main`, over the captured `start`. -/
def heartbeatFactory (start : Time) (now : Nat → Time) : Msg :=
  .Ping
    { Timestamp := toUint64 (now 0).unixMilli
      Uptime := toUint32 (DurationSeconds (Since start (now 1))) }

/-! ## The process: `main` and `registerMessages`

`main` runs against a world holding the process-wide registry, the subscription table of
the client and the trace of the calls made so far.  A call either continues or ends the
process. -/

/-- One call made by `main`, with the result the callee gave where `main` reads it. -/
inductive MainEvent where
  | NotifyContext
  | MustRegister (m : MessageMeta)
  | Now
  | NewClient (cfg : ClientConfig) (err : Option GoError)
  | Fatalf (format : String) (err : GoError)
  | Subscribe (t : MessageType) (h : Handler)
  | Println (text : String)
  | Run (flow : LoginFlow) (err : Option GoError)
  | stop

/-- How the process ended early: `log.Fatalf` (which exits with status 1), or the fatal
conflict of `MustRegister`. -/
inductive Fatal where
  | logFatalf
  | registerConflict
  deriving DecidableEq, Repr

/-- The state `main` acts on. -/
structure World where
  registry : Registry
  subscriptions : List (MessageType × Handler)
  trace : List MainEvent

/-- Result of a step: it continues with a value, or the process has ended. -/
inductive Res (α : Type) where
  | ok (a : α) (w : World)
  | exit (f : Fatal) (w : World)

/-- A step of the process. -/
def M (α : Type) : Type := World → Res α

/-- Sequencing: nothing runs after the process has ended. -/
def M.bind {α β : Type} (x : M α) (f : α → M β) : M β :=
  fun w =>
    match x w with
    | .ok a w1 => f a w1
    | .exit e w1 => .exit e w1

/-- A step without effect. -/
def M.pure {α : Type} (a : α) : M α := fun w => .ok a w

instance : Monad M where
  pure := M.pure
  bind := M.bind

/-- Record a call in the trace. -/
def emit (e : MainEvent) : M Unit :=
  fun w => .ok () { w with trace := w.trace ++ [e] }

/-- Modelled from the spec: `paynet.MustRegister` is not among the sources.  "`Register
(MessageMeta)` — fatal-on-conflict": it registers the entry and ends the process when
`Register` fails. -/
def MustRegister (m : MessageMeta) : M Unit :=
  fun w =>
    match Register w.registry m with
    | .ok r => .ok () { w with registry := r, trace := w.trace ++ [.MustRegister m] }
    | .error _ => .exit .registerConflict { w with trace := w.trace ++ [.MustRegister m] }

/-- Go `log.Fatalf`: log and exit; deferred calls do not run. -/
def Fatalf {α : Type} (format : String) (err : GoError) : M α :=
  fun w => .exit .logFatalf { w with trace := w.trace ++ [.Fatalf format err] }

/-- Call `paynet.NewClient(cfg)`; `result` is the error it returns, if any. -/
def NewClient (result : Option GoError) (cfg : ClientConfig) : M (Except GoError Client) :=
  fun w =>
    .ok (match result with
         | some e => .error e
         | none => .ok {})
      { w with trace := w.trace ++ [.NewClient cfg result] }

/-- Modelled from the spec: `Client.Subscribe` is not among the sources.  "`Subscribe(type,
handler)`: registration into the subscription table"; the latest entry for a type is the
first in the table. -/
def Subscribe (_cli : Client) (t : MessageType) (h : Handler) : M Unit :=
  fun w =>
    .ok () { w with subscriptions := (t, h) :: w.subscriptions
                    trace := w.trace ++ [.Subscribe t h] }

/-- Call `client.Run(ctx, flow)`; `result` is the error it returns, if any. -/
def Run (result : Option GoError) (_cli : Client) (flow : LoginFlow) : M (Option GoError) :=
  fun w => .ok result { w with trace := w.trace ++ [.Run flow result] }

/-- Function `registerMessages` of `main.go`. -/
def registerMessages (c : Consts) : M Unit := do
  MustRegister
    { Type_ := c.typeId .TypeRegisterReq
      Name := "paybox.RegisterReq"
      Factory := fun _ => .RegisterReq ⟨"", "", "", []⟩ }
  MustRegister
    { Type_ := c.typeId .TypeRegisterRsp
      Name := "paybox.RegisterRsp"
      Factory := fun _ => .RegisterRsp ⟨[]⟩
      Handler := some fun _ctx msg =>
        .logPrintf "[CLIENT] <- RegisterRsp payload=%+v" msg <|
        .ret none }
  MustRegister
    { Type_ := c.typeId .TypeLoginReq
      Name := "paybox.LoginReq"
      Factory := fun _ => .LoginReq ⟨"", "", ""⟩ }
  MustRegister
    { Type_ := c.typeId .TypeLoginRsp
      Name := "paybox.LoginRsp"
      Factory := fun _ => .LoginRsp ⟨[]⟩
      Handler := some fun _ctx msg =>
        .logPrintf "[CLIENT] <- LoginRsp payload=%+v" msg <|
        .ret none }
  MustRegister
    { Type_ := c.typeId .TypePing
      Name := "paybox.Ping"
      Factory := fun _ => .Ping ⟨0, 0⟩ }
  MustRegister
    { Type_ := c.typeId .TypePong
      Name := "paybox.Pong"
      Factory := fun _ => .Pong ⟨[]⟩
      Handler := some fun _ctx msg =>
        .logPrintf "[CLIENT] <- Pong payload=%+v" msg <|
        .ret none }
  MustRegister
    { Type_ := c.typeId .TypeCoinCommand
      Name := "paybox.CoinCommand"
      Factory := fun _ => .CoinCommand ⟨0⟩ }
  MustRegister
    { Type_ := c.typeId .TypeCoinAck
      Name := "paybox.CoinAck"
      Factory := fun _ => .CoinAck ⟨0, 0, 0⟩ }
  MustRegister
    { Type_ := c.typeId .TypeQueryReq
      Name := "paybox.QueryReq"
      Factory := fun _ => .QueryReq ⟨[]⟩ }
  MustRegister
    { Type_ := c.typeId .TypeQueryRsp
      Name := "paybox.QueryRsp"
      Factory := fun _ => .QueryRsp ⟨[]⟩ }
  MustRegister
    { Type_ := c.typeId .TypeError
      Name := "paybox.ErrorMsg"
      Factory := fun _ => .ErrorMsg ⟨[]⟩ }

/-- What the surroundings of one run of `main` supply: the constants of the library, the
reading of the clock at `start := time.Now()`, and the errors `NewClient` and `Run`
return. -/
structure Env where
  consts : Consts
  start : Time
  newClientResult : Option GoError
  runResult : Option GoError

/-- Function `main` of `main.go`. -/
def main (env : Env) : M Unit := do
  emit .NotifyContext
  registerMessages env.consts
  emit .Now
  let start := env.start
  let r ← NewClient env.newClientResult
    { Addr := "127.0.0.1:9443"
      TLS :=
        { CertFile := "./certs/device.crt"
          KeyFile := "./certs/device.key"
          CAFile := "./certs/ca.crt"
          ServerName := "paynet.local" }
      HeartbeatInterval := 60 * Second
      HeartbeatFactory := heartbeatFactory start }
  match r with
  | .error err => Fatalf "init client: %v" err
  | .ok client =>
    Subscribe client (env.consts.typeId .TypeCoinCommand) (handleCoinCommand env.consts client)
    Subscribe client (env.consts.typeId .TypeQueryRsp) handleQueryRsp
    let flow : LoginFlow :=
      { Register :=
          { DeviceSn := "SN-demo-001"
            Model := "paybox-mini"
            Firmware := "1.0.0"
            DevicePubkey := [102, 97, 107, 101] }
        Login :=
          { DeviceId := "dev-SN-demo-001"
            Token := "demo-token"
            Version := "1.0.0" } }
    emit (.Println "[CLIENT] starting connection...")
    let err ← Run env.runResult client flow
    match err with
    | some e =>
      if !errorsIs e .Canceled then Fatalf "client stopped: %v" e
      else emit .stop
    | none => emit .stop

/-- The world of a fresh process: nothing registered, nothing subscribed, no call made. -/
def World.initial : World := { registry := [], subscriptions := [], trace := [] }

/-- One run of `main` from a fresh process. -/
def runMain (env : Env) : Res Unit := main env World.initial

/-- The final world of a run. -/
def Res.world {α : Type} : Res α → World
  | .ok _ w => w
  | .exit _ w => w

/-- Whether the process ended fatally. -/
def Res.isFatal {α : Type} : Res α → Bool
  | .ok _ _ => false
  | .exit _ _ => true

/-! ## Concrete inputs -/

/-- The run of the `CoinCommand` handler on a command with order id `n`. -/
def coinRun (c : Consts) (cli : Client) (ctx : Context) (n : Nat)
    (sendResult : Nat → Option GoError) (bgResult : Nat → Nat → Option GoError) : HandlerRun :=
  runHandler sendResult bgResult (handleCoinCommand c cli ctx (.CoinCommand ⟨n⟩))

/-- A sample assignment of the constants: the types numbered from 1 in the order of
registration, the coin states 1 and 2. -/
def sampleConsts : Consts where
  typeId
    | .TypeRegisterReq => 1
    | .TypeRegisterRsp => 2
    | .TypeLoginReq => 3
    | .TypeLoginRsp => 4
    | .TypePing => 5
    | .TypePong => 6
    | .TypeCoinCommand => 7
    | .TypeCoinAck => 8
    | .TypeQueryReq => 9
    | .TypeQueryRsp => 10
    | .TypeError => 11
  COIN_ACCEPTED := 1
  COIN_DONE := 2

/-- Every `Send` succeeds. -/
def sendOk : Nat → Option GoError := fun _ => none

/-- Every `Send` fails with a closed connection. -/
def sendClosed : Nat → Option GoError := fun _ => some (.plain "connection closed")

/-- Every `Send` of every started goroutine succeeds. -/
def bgOk : Nat → Nat → Option GoError := fun _ _ => none

/-- Every `Send` of every started goroutine fails with a closed connection. -/
def bgClosed : Nat → Nat → Option GoError := fun _ _ => some (.plain "connection closed")

/-- A process in which `NewClient` succeeds and `Run` ends on cancellation. -/
def sampleEnv : Env :=
  { consts := sampleConsts
    start := { unixMilli := 1700000000000, mono := 0 }
    newClientResult := none
    runResult := some .Canceled }

/-- A process in which `NewClient` fails. -/
def sampleEnvNoClient : Env :=
  { consts := sampleConsts
    start := { unixMilli := 1700000000000, mono := 0 }
    newClientResult := some (.plain "load key pair")
    runResult := none }

/-- A process in which `NewClient` succeeds and `Run` returns nil. -/
def sampleEnvRunNil : Env :=
  { consts := sampleConsts
    start := { unixMilli := 1700000000000, mono := 0 }
    newClientResult := none
    runResult := none }

/-- A process in which `NewClient` succeeds and `Run` returns an error that wraps
`context.Canceled`. -/
def sampleEnvRunWrappedCancel : Env :=
  { consts := sampleConsts
    start := { unixMilli := 1700000000000, mono := 0 }
    newClientResult := none
    runResult := some (.wrapped "read loop" (.wrapped "session" .Canceled)) }

/-- A process in which `NewClient` succeeds and `Run` returns a rejected handshake, an
error that wraps another one but not `context.Canceled`. -/
def sampleEnvRunRejected : Env :=
  { consts := sampleConsts
    start := { unixMilli := 1700000000000, mono := 0 }
    newClientResult := none
    runResult := some (.wrapped "handshake" (.plain "login rejected")) }

/-- The clock of `sampleEnv` 90.5 seconds after `start`. -/
def earlyReading : Nat → Time :=
  fun _ => { unixMilli := 1700000090500, mono := 90500000000 }

/-- The clock of `sampleEnv` 120 seconds after `start`. -/
def laterReading : Nat → Time :=
  fun _ => { unixMilli := 1700000120000, mono := 120000000000 }

/-- The clock of `sampleEnv` 16777216.999999999 seconds (a little over 194 days) after
`start`. -/
def lateReading : Nat → Time :=
  fun _ => { unixMilli := 1716777216999, mono := 16777216999999999 }

/-- The clock of `sampleEnv` 4294967295 seconds after `start`. -/
def edgeReading : Nat → Time :=
  fun _ => { unixMilli := 5994967295000, mono := 4294967295000000000 }

/-- The clock of `sampleEnv` 4294967295.999999999 seconds after `start`. -/
def edgeReadingLate : Nat → Time :=
  fun _ => { unixMilli := 5994967295999, mono := 4294967295999999999 }

/-- A clock showing one millisecond before the Unix epoch. -/
def beforeEpoch : Nat → Time :=
  fun _ => { unixMilli := -1, mono := 1000000 }

/-- A clock showing the Unix epoch. -/
def atEpoch : Nat → Time :=
  fun _ => { unixMilli := 0, mono := 2000000 }

/-! ## Notions the statements use -/

/-- The `Uptime` the specification describes: the whole seconds elapsed between `start` and
`now`, converted to an unsigned 32-bit integer. -/
def wholeSecondsUptime (start now : Time) : Nat :=
  ((Since start now / Second) % 2 ^ 32).toNat

/-- An error followed by every error it wraps, outermost first: the errors that "are or are
wrapped by" it. -/
def unwrapChain : GoError → List GoError
  | .wrapped text inner => .wrapped text inner :: unwrapChain inner
  | err => [err]

/-- The `log.Fatalf` calls in a trace, as (format, error) pairs, in order. -/
def fatalCalls : List MainEvent → List (String × GoError)
  | [] => []
  | .Fatalf format err :: rest => (format, err) :: fatalCalls rest
  | _ :: rest => fatalCalls rest

/-- The kind of a call of `main`, with the type a `Subscribe` call names. -/
inductive Kind where
  | NotifyContext
  | MustRegister
  | Now
  | NewClient
  | Fatalf
  | Subscribe (t : MessageType)
  | Println
  | Run
  | stop
  deriving DecidableEq, Repr

/-- The kind of a recorded call. -/
def MainEvent.kind : MainEvent → Kind
  | .NotifyContext => .NotifyContext
  | .MustRegister _ => .MustRegister
  | .Now => .Now
  | .NewClient _ _ => .NewClient
  | .Fatalf _ _ => .Fatalf
  | .Subscribe t _ => .Subscribe t
  | .Println _ => .Println
  | .Run _ _ => .Run
  | .stop => .stop

/-- The kinds of the calls made so far. -/
def World.kinds (w : World) : List Kind := w.trace.map MainEvent.kind

/-- The entries passed to `MustRegister` in a trace, in order. -/
def registered : List MainEvent → List MessageMeta
  | [] => []
  | .MustRegister m :: rest => m :: registered rest
  | _ :: rest => registered rest

/-- The configurations passed to `NewClient` in a trace, in order. -/
def clientConfigs : List MainEvent → List ClientConfig
  | [] => []
  | .NewClient cfg _ :: rest => cfg :: clientConfigs rest
  | _ :: rest => clientConfigs rest

/-- Modelled from the spec: the dispatcher is not among the sources.  "look up a handler —
subscription override first, else Registry default handler". -/
def lookupHandler (w : World) (t : MessageType) : Option Handler :=
  match w.subscriptions.lookup t with
  | some h => some h
  | none =>
    match Lookup w.registry t with
    | .ok m => m.Handler
    | .error _ => none

/-- Whether the client has a subscription for the type. -/
def hasSubscription (w : World) (t : MessageType) : Bool :=
  (w.subscriptions.lookup t).isSome

/-- Whether the registry entry of the type carries a default handler. -/
def hasDefaultHandler (w : World) (t : MessageType) : Bool :=
  match Lookup w.registry t with
  | .ok m => m.Handler.isSome
  | .error _ => false

/-- A step that makes at most `n` calls, all of them `MustRegister`: it either continues
after exactly `n` of them or ends the process on a registration conflict. -/
def RegistersOnly (n : Nat) (x : M Unit) : Prop :=
  ∀ w, (∃ w1, x w = .ok () w1 ∧ w1.kinds = w.kinds ++ List.replicate n .MustRegister) ∨
    (∃ w1 k, k ≤ n ∧ x w = .exit .registerConflict w1 ∧
      w1.kinds = w.kinds ++ List.replicate k .MustRegister)

/-! ## Theorems: the `CoinCommand` handler -/

/-- C1: for every order id `n` and whatever the `Send` calls return, the first `Send` of the
handler returned by `handleCoinCommand` sends the `CoinAck` with `OrderId` `n`, `State`
`COIN_ACCEPTED` and `Progress` 0 under `WithType(TypeCoinAck)`; it is preceded by the two
log calls only, and that acknowledgment is sent exactly once in the whole run. -/
theorem C1_first_send_is_accepted_ack (c : Consts) (cli : Client) (ctx : Context) (n : Nat)
    (sendResult : Nat → Option GoError) (bgResult : Nat → Nat → Option GoError) :
    (sends (coinRun c cli ctx n sendResult bgResult).handler.events).head? =
        some (.CoinAck ⟨n, c.COIN_ACCEPTED, 0⟩, c.typeId .TypeCoinAck) ∧
      (coinRun c cli ctx n sendResult bgResult).handler.events.take 3 =
        [.logPrintf "[CLIENT] <- CoinCommand payload=%+v" (.CoinCommand ⟨n⟩),
         .logPrintf "[CLIENT] -> CoinAck (ACCEPTED) payload=%+v"
           (.CoinAck ⟨n, c.COIN_ACCEPTED, 0⟩),
         .send (.CoinAck ⟨n, c.COIN_ACCEPTED, 0⟩) (c.typeId .TypeCoinAck) (sendResult 0)] ∧
      (coinRun c cli ctx n sendResult bgResult).allSends.count
        (.CoinAck ⟨n, c.COIN_ACCEPTED, 0⟩, c.typeId .TypeCoinAck) = 1 := by
  cases h : sendResult 0 <;>
    simp [coinRun, handleCoinCommand, exec, sends, runHandler, HandlerRun.allSends, h,
      List.range, List.range.loop]

/-- C6: when the first (ACCEPTED) `Send` succeeds, the handler returns nil whatever the
delayed (DONE) `Send` returns: its result and its own effects are the same in two runs that
differ in the results of the delayed `Send`; and the started goroutine does nothing after the
delayed `Send` and ends with nil, so the error of that `Send` reaches no caller. -/
theorem C6_delayed_send_error_discarded (c : Consts) (cli : Client) (ctx : Context) (n : Nat)
    (sendResult : Nat → Option GoError) (h : sendResult 0 = none)
    (bg1 bg2 : Nat → Nat → Option GoError) :
    (coinRun c cli ctx n sendResult bg1).handler.result = .returned none ∧
      (coinRun c cli ctx n sendResult bg1).handler.result =
        (coinRun c cli ctx n sendResult bg2).handler.result ∧
      (coinRun c cli ctx n sendResult bg1).handler.events =
        (coinRun c cli ctx n sendResult bg2).handler.events ∧
      (coinRun c cli ctx n sendResult bg1).background.map (fun b => (b.events, b.result)) =
        [([.sleep 2,
           .logPrintf "[CLIENT] -> CoinAck (DONE) payload=%+v" (.CoinAck ⟨n, c.COIN_DONE, 100⟩),
           .send (.CoinAck ⟨n, c.COIN_DONE, 100⟩) (c.typeId .TypeCoinAck) (bg1 0 0)],
          .returned none)] ∧
      (∀ b ∈ (coinRun c cli ctx n sendResult bg1).background, b.spawned = []) := by
  simp [coinRun, handleCoinCommand, exec, runHandler, h, List.range, List.range.loop]

/-- C6, at a concrete input: order 7, the first `Send` succeeds, the delayed `Send` succeeds
in one run and fails in the other. -/
theorem C6_delayed_send_error_discarded_witness :
    sendOk 0 = none ∧
      (coinRun sampleConsts {} {} 7 sendOk bgOk).handler.result = .returned none ∧
      (coinRun sampleConsts {} {} 7 sendOk bgOk).handler.result =
        (coinRun sampleConsts {} {} 7 sendOk bgClosed).handler.result :=
  ⟨rfl, (C6_delayed_send_error_discarded sampleConsts {} {} 7 sendOk rfl bgOk bgClosed).1,
    (C6_delayed_send_error_discarded sampleConsts {} {} 7 sendOk rfl bgOk bgClosed).2.1⟩

/-- C7: one `CoinCommand` causes at most two `Send` calls; when the ACCEPTED `Send` succeeds
the handler then starts exactly one goroutine (the `go` statement follows the `Send` in its
effects) and returns nil without waiting for it; that goroutine sleeps 2 seconds and sends
one `CoinAck` with `OrderId` `n`, `State` `COIN_DONE`, `Progress` 100 under
`WithType(TypeCoinAck)`; the `Send` calls of the run are ACCEPTED then DONE. -/
theorem C7_one_follow_up_done_ack (c : Consts) (cli : Client) (ctx : Context) (n : Nat)
    (sendResult : Nat → Option GoError) (bgResult : Nat → Nat → Option GoError) :
    (coinRun c cli ctx n sendResult bgResult).allSends.length ≤ 2 ∧
      (sendResult 0 = none →
        (coinRun c cli ctx n sendResult bgResult).handler.events =
          [.logPrintf "[CLIENT] <- CoinCommand payload=%+v" (.CoinCommand ⟨n⟩),
           .logPrintf "[CLIENT] -> CoinAck (ACCEPTED) payload=%+v"
             (.CoinAck ⟨n, c.COIN_ACCEPTED, 0⟩),
           .send (.CoinAck ⟨n, c.COIN_ACCEPTED, 0⟩) (c.typeId .TypeCoinAck) none,
           .go] ∧
        (coinRun c cli ctx n sendResult bgResult).handler.result = .returned none ∧
        (coinRun c cli ctx n sendResult bgResult).handler.spawned.length = 1 ∧
        (coinRun c cli ctx n sendResult bgResult).background.map (fun b => b.events) =
          [[.sleep 2,
            .logPrintf "[CLIENT] -> CoinAck (DONE) payload=%+v"
              (.CoinAck ⟨n, c.COIN_DONE, 100⟩),
            .send (.CoinAck ⟨n, c.COIN_DONE, 100⟩) (c.typeId .TypeCoinAck) (bgResult 0 0)]] ∧
        (coinRun c cli ctx n sendResult bgResult).allSends =
          [(.CoinAck ⟨n, c.COIN_ACCEPTED, 0⟩, c.typeId .TypeCoinAck),
           (.CoinAck ⟨n, c.COIN_DONE, 100⟩, c.typeId .TypeCoinAck)]) := by
  cases h : sendResult 0 <;>
    simp [coinRun, handleCoinCommand, exec, sends, runHandler, HandlerRun.allSends, h,
      List.range, List.range.loop]

/-- C7, at a concrete input: order 7 with every `Send` succeeding causes the two `Send`
calls ACCEPTED then DONE. -/
theorem C7_one_follow_up_done_ack_witness :
    sendOk 0 = none ∧
      (coinRun sampleConsts {} {} 7 sendOk bgOk).allSends =
        [(.CoinAck ⟨7, 1, 0⟩, 8), (.CoinAck ⟨7, 2, 100⟩, 8)] :=
  ⟨rfl, ((C7_one_follow_up_done_ack sampleConsts {} {} 7 sendOk bgOk).2 rfl).2.2.2.2⟩

/-- C9: when the first (ACCEPTED) `Send` fails with `e`, the handler returns `e`, starts no
goroutine, and the only `Send` of the run is that failed one: no DONE acknowledgment is
sent. -/
theorem C9_accepted_send_failure (c : Consts) (cli : Client) (ctx : Context) (n : Nat)
    (sendResult : Nat → Option GoError) (bgResult : Nat → Nat → Option GoError) (e : GoError)
    (h : sendResult 0 = some e) :
    (coinRun c cli ctx n sendResult bgResult).handler.result = .returned (some e) ∧
      (coinRun c cli ctx n sendResult bgResult).handler.spawned.length = 0 ∧
      (coinRun c cli ctx n sendResult bgResult).background.length = 0 ∧
      (coinRun c cli ctx n sendResult bgResult).allSends =
        [(.CoinAck ⟨n, c.COIN_ACCEPTED, 0⟩, c.typeId .TypeCoinAck)] ∧
      (Msg.CoinAck ⟨n, c.COIN_DONE, 100⟩, c.typeId .TypeCoinAck) ∉
        (coinRun c cli ctx n sendResult bgResult).allSends := by
  simp [coinRun, handleCoinCommand, exec, sends, runHandler, HandlerRun.allSends, h]

/-- C9, at a concrete input: order 7 on a closed connection. -/
theorem C9_accepted_send_failure_witness :
    sendClosed 0 = some (.plain "connection closed") ∧
      (coinRun sampleConsts {} {} 7 sendClosed bgOk).handler.result =
        .returned (some (.plain "connection closed")) ∧
      (coinRun sampleConsts {} {} 7 sendClosed bgOk).allSends = [(.CoinAck ⟨7, 1, 0⟩, 8)] :=
  ⟨rfl, (C9_accepted_send_failure sampleConsts {} {} 7 sendClosed bgOk _ rfl).1,
    (C9_accepted_send_failure sampleConsts {} {} 7 sendClosed bgOk _ rfl).2.2.2.1⟩

/-! ## Theorems: registration and the run of `main` -/

theorem sampleConsts_injective : Function.Injective sampleConsts.typeId := by
  intro a b h
  cases a <;> cases b <;> first | rfl | (exact absurd h (by decide))

/-- C2: with pairwise distinct `paynet.Type*` constants, every one of the eleven
`MustRegister` calls of `registerMessages` succeeds from a fresh registry (the process is not
ended), the eleven entries carry the names and types listed, pairwise distinct, and they
are the content of the registry afterwards. -/
theorem C2_registrations_unique_and_succeed (c : Consts)
    (hinj : Function.Injective c.typeId) :
    ∃ w, registerMessages c World.initial = .ok () w ∧
      (registered w.trace).map (fun m => m.Name) =
        ["paybox.RegisterReq", "paybox.RegisterRsp", "paybox.LoginReq", "paybox.LoginRsp",
         "paybox.Ping", "paybox.Pong", "paybox.CoinCommand", "paybox.CoinAck",
         "paybox.QueryReq", "paybox.QueryRsp", "paybox.ErrorMsg"] ∧
      (registered w.trace).map (fun m => m.Type_) =
        [c.typeId .TypeRegisterReq, c.typeId .TypeRegisterRsp, c.typeId .TypeLoginReq,
         c.typeId .TypeLoginRsp, c.typeId .TypePing, c.typeId .TypePong,
         c.typeId .TypeCoinCommand, c.typeId .TypeCoinAck, c.typeId .TypeQueryReq,
         c.typeId .TypeQueryRsp, c.typeId .TypeError] ∧
      ((registered w.trace).map (fun m => m.Name)).Nodup ∧
      ((registered w.trace).map (fun m => m.Type_)).Nodup ∧
      w.registry.map (fun m => (m.Type_, m.Name)) =
        (registered w.trace).map (fun m => (m.Type_, m.Name)) := by
  simp [registerMessages, MustRegister, Register, World.initial, bind, M.bind, hinj.eq_iff,
    registered]

/-- C2, with the sample constants: the eleven registrations succeed. -/
theorem C2_registrations_unique_and_succeed_witness :
    Function.Injective sampleConsts.typeId ∧
      ∃ w, registerMessages sampleConsts World.initial = .ok () w ∧
        (registered w.trace).map (fun m => m.Type_) = [1, 2, 3, 4, 5, 6, 7, 8, 9, 10, 11] :=
  ⟨sampleConsts_injective,
    (C2_registrations_unique_and_succeed sampleConsts sampleConsts_injective).imp
      fun _ h => ⟨h.1, h.2.2.1⟩⟩

theorem main_setup (env : Env) (hinj : Function.Injective env.consts.typeId)
    (hn : env.newClientResult = none) :
    (runMain env).world.subscriptions =
        [(env.consts.typeId .TypeQueryRsp, handleQueryRsp),
         (env.consts.typeId .TypeCoinCommand, handleCoinCommand env.consts {})] ∧
      (runMain env).world.registry.map
          (fun m => (m.Type_, m.Handler.isSome, (m.Factory ()).shape)) =
        [(env.consts.typeId .TypeRegisterReq, false, .RegisterReq),
         (env.consts.typeId .TypeRegisterRsp, true, .RegisterRsp),
         (env.consts.typeId .TypeLoginReq, false, .LoginReq),
         (env.consts.typeId .TypeLoginRsp, true, .LoginRsp),
         (env.consts.typeId .TypePing, false, .Ping),
         (env.consts.typeId .TypePong, true, .Pong),
         (env.consts.typeId .TypeCoinCommand, false, .CoinCommand),
         (env.consts.typeId .TypeCoinAck, false, .CoinAck),
         (env.consts.typeId .TypeQueryReq, false, .QueryReq),
         (env.consts.typeId .TypeQueryRsp, false, .QueryRsp),
         (env.consts.typeId .TypeError, false, .ErrorMsg)] := by
  rcases hr : env.runResult with _ | e2
  · simp [runMain, main, registerMessages, MustRegister, Register, World.initial, bind, M.bind,
      hinj.eq_iff, emit, NewClient, Subscribe, Run, hn, hr, Res.world, Msg.shape]
  · cases hc : errorsIs e2 .Canceled <;>
      simp [runMain, main, registerMessages, MustRegister, Register, World.initial, bind,
        M.bind, hinj.eq_iff, emit, NewClient, Subscribe, Run, hn, hr, Res.world, Msg.shape, hc,
        Fatalf]

theorem find_map_aux {α β : Type} (f : α → β) (p : β → Bool) (l : List α) :
    (l.find? (fun x => p (f x))).map f = (l.map f).find? p := by
  induction l with
  | nil => rfl
  | cons a l ih =>
    simp only [List.find?_cons, List.map_cons]
    cases p (f a) <;> simp [ih]

theorem lookup_summary (r : Registry) (t : MessageType) :
    (match Lookup r t with
      | .ok m => some (m.Type_, m.Handler.isSome, (m.Factory ()).shape)
      | .error _ => none) =
      (r.map (fun m => (m.Type_, m.Handler.isSome, (m.Factory ()).shape))).find?
        (fun x => decide (x.1 = t)) := by
  rw [← find_map_aux (fun m : MessageMeta => (m.Type_, m.Handler.isSome, (m.Factory ()).shape))
    (fun x => decide (x.1 = t))]
  unfold Lookup
  cases h : List.find? (fun x => decide (x.Type_ = t)) r <;> simp [h]

theorem typeId_beq (c : Consts) (hinj : Function.Injective c.typeId) (a b : TypeConst) :
    (c.typeId a == c.typeId b) = decide (a = b) := by
  rw [Bool.eq_iff_iff]
  simp [hinj.eq_iff]

theorem handleCoinCommand_panics_iff (c : Consts) (cli : Client) (ctx : Context) (msg : Msg)
    (sendResult : Nat → Option GoError) :
    (exec sendResult (handleCoinCommand c cli ctx msg) 0).result = .panicked ↔
      msg.shape ≠ .CoinCommand := by
  cases msg <;> simp [handleCoinCommand, exec, Msg.shape]
  cases h : sendResult 0 <;> simp [exec]

theorem handleQueryRsp_panics_iff (ctx : Context) (msg : Msg)
    (sendResult : Nat → Option GoError) :
    (exec sendResult (handleQueryRsp ctx msg) 0).result = .panicked ↔
      msg.shape ≠ .QueryRsp := by
  cases msg <;> simp [handleQueryRsp, exec, Msg.shape]

/-- C3: with pairwise distinct type constants and a client successfully created, `main`
subscribes exactly `handleQueryRsp` under `TypeQueryRsp` and the `handleCoinCommand` handler
under `TypeCoinCommand`; for each subscription the registry has an entry of that type, and
the handler fails its type assertion on a message exactly when the message has not the
concrete shape of what that entry's `Factory` produces. -/
theorem C3_factory_shape_matches_cast (env : Env)
    (hinj : Function.Injective env.consts.typeId) (hn : env.newClientResult = none) :
    (runMain env).world.subscriptions.map Prod.fst =
        [env.consts.typeId .TypeQueryRsp, env.consts.typeId .TypeCoinCommand] ∧
      ∀ t h, (t, h) ∈ (runMain env).world.subscriptions →
        ∃ m, Lookup (runMain env).world.registry t = .ok m ∧
          ∀ ctx msg sendResult,
            ((exec sendResult (h ctx msg) 0).result = .panicked ↔
              msg.shape ≠ (m.Factory ()).shape) := by
  obtain ⟨hs, hreg⟩ := main_setup env hinj hn
  have hb := typeId_beq env.consts hinj
  refine ⟨by rw [hs]; rfl, ?_⟩
  intro t h hmem
  have hl := lookup_summary (runMain env).world.registry t
  rw [hs] at hmem
  rw [hreg] at hl
  simp only [List.mem_cons, Prod.mk.injEq, List.mem_nil_iff, or_false] at hmem
  rcases hmem with ⟨rfl, rfl⟩ | ⟨rfl, rfl⟩
  · simp [List.find?, hinj.eq_iff] at hl
    cases hL : Lookup (runMain env).world.registry (env.consts.typeId .TypeQueryRsp) with
    | error e => rw [hL] at hl; simp at hl
    | ok m =>
      rw [hL] at hl
      simp at hl
      refine ⟨m, rfl, ?_⟩
      intro ctx msg sendResult
      rw [hl.2.2]
      exact handleQueryRsp_panics_iff ctx msg sendResult
  · simp [List.find?, hinj.eq_iff] at hl
    cases hL : Lookup (runMain env).world.registry (env.consts.typeId .TypeCoinCommand) with
    | error e => rw [hL] at hl; simp at hl
    | ok m =>
      rw [hL] at hl
      simp at hl
      refine ⟨m, rfl, ?_⟩
      intro ctx msg sendResult
      rw [hl.2.2]
      exact handleCoinCommand_panics_iff env.consts {} ctx msg sendResult

/-- C3, in the sample process: the two subscriptions are for the types 10 and 7. -/
theorem C3_factory_shape_matches_cast_witness :
    Function.Injective sampleEnv.consts.typeId ∧ sampleEnv.newClientResult = none ∧
      (runMain sampleEnv).world.subscriptions.map Prod.fst = [10, 7] :=
  ⟨sampleConsts_injective, rfl,
    (C3_factory_shape_matches_cast sampleEnv sampleConsts_injective rfl).1⟩

theorem errorsIs_iff_mem (err target : GoError) :
    errorsIs err target = true ↔ target ∈ unwrapChain err := by
  induction err with
  | Canceled => simp [errorsIs, unwrapChain, eq_comm]
  | plain text => simp [errorsIs, unwrapChain, eq_comm]
  | wrapped text inner ih =>
    simp only [errorsIs, unwrapChain, List.mem_cons]
    by_cases h : GoError.wrapped text inner = target
    · simp [h]
    · have h2 : ¬ target = GoError.wrapped text inner := fun e => h e.symm
      simp [h, h2, ih]

/-- C5: with pairwise distinct type constants, `main` ends fatally exactly when `NewClient`
returns an error, or `Run` returns an error that neither is nor wraps `context.Canceled`.
When `NewClient` fails with `e` it was called once, neither `Subscribe` nor `Run` is called,
and the process ends in the one call `log.Fatalf("init client: %v", e)`.  When `NewClient`
succeeds and `Run` returns an error `e` that neither is nor wraps `context.Canceled`, the
process ends in the one call `log.Fatalf("client stopped: %v", e)` after the one call of
`Run`.  When `NewClient` succeeds and `Run` returns nil or an error that is or wraps
`context.Canceled`, `main` returns normally, without a call of `log.Fatalf`, after the one
call of `Run` and the deferred `stop`. -/
theorem C5_fatal_iff (env : Env) (hinj : Function.Injective env.consts.typeId) :
    ((runMain env).isFatal = true ↔
        env.newClientResult ≠ none ∨
          ∃ e, env.runResult = some e ∧ GoError.Canceled ∉ unwrapChain e) ∧
      (env.newClientResult ≠ none →
        (∃ w, runMain env = .exit .logFatalf w) ∧
        (runMain env).world.kinds.count .NewClient = 1 ∧
        Kind.Run ∉ (runMain env).world.kinds ∧
        (∀ t, Kind.Subscribe t ∉ (runMain env).world.kinds) ∧
        ∃ e, env.newClientResult = some e ∧
          fatalCalls (runMain env).world.trace = [("init client: %v", e)]) ∧
      (env.newClientResult = none →
        ∀ e, env.runResult = some e → GoError.Canceled ∉ unwrapChain e →
        (∃ w, runMain env = .exit .logFatalf w) ∧
        (runMain env).world.kinds.count .Run = 1 ∧
        Kind.stop ∉ (runMain env).world.kinds ∧
        fatalCalls (runMain env).world.trace = [("client stopped: %v", e)]) ∧
      (env.newClientResult = none →
        (env.runResult = none ∨
          ∃ e, env.runResult = some e ∧ GoError.Canceled ∈ unwrapChain e) →
        (∃ w, runMain env = .ok () w) ∧ (runMain env).world.kinds.count .Run = 1 ∧
        (runMain env).world.kinds.getLast? = some .stop ∧
        fatalCalls (runMain env).world.trace = []) := by
  rcases hn : env.newClientResult with _ | e1
  · rcases hr : env.runResult with _ | e2
    · simp [runMain, main, registerMessages, MustRegister, Register, World.initial, bind,
        M.bind, hinj.eq_iff, emit, NewClient, Subscribe, Run, hn, hr, Res.isFatal, Res.world,
        World.kinds, MainEvent.kind, fatalCalls]
    · have hm := errorsIs_iff_mem e2 .Canceled
      cases hc : errorsIs e2 .Canceled
      · have hnot : GoError.Canceled ∉ unwrapChain e2 := by
          rw [← hm, hc]
          simp
        simp [runMain, main, registerMessages, MustRegister, Register, World.initial, bind,
          M.bind, hinj.eq_iff, emit, NewClient, Subscribe, Run, hn, hr, Res.isFatal, hc,
          Fatalf, Res.world, World.kinds, MainEvent.kind, fatalCalls, hnot]
      · have hin : GoError.Canceled ∈ unwrapChain e2 := hm.mp hc
        simp [runMain, main, registerMessages, MustRegister, Register, World.initial, bind,
          M.bind, hinj.eq_iff, emit, NewClient, Subscribe, Run, hn, hr, Res.isFatal, hc,
          Fatalf, Res.world, World.kinds, MainEvent.kind, fatalCalls, hin]
  · simp [runMain, main, registerMessages, MustRegister, Register, World.initial, bind, M.bind,
      hinj.eq_iff, emit, NewClient, Subscribe, Run, hn, Res.isFatal, Fatalf, Res.world,
      World.kinds, MainEvent.kind, fatalCalls]

/-- C5, in five sample processes: a failed `NewClient` is fatal and `Run` is not called; a
rejected handshake returned by `Run` is fatal, with the call
`log.Fatalf("client stopped: %v", err)`; `Run` returning nil, `context.Canceled` itself or an
error wrapping `context.Canceled` two levels deep lets `main` return normally. -/
theorem C5_fatal_iff_witness :
    (Function.Injective sampleConsts.typeId ∧
        sampleEnvNoClient.newClientResult ≠ none ∧
        sampleEnvRunRejected.newClientResult = none ∧
        GoError.Canceled ∉ unwrapChain (.wrapped "handshake" (.plain "login rejected")) ∧
        GoError.Canceled ∈ unwrapChain (.wrapped "read loop" (.wrapped "session" .Canceled))) ∧
      ((runMain sampleEnvNoClient).isFatal = true ∧
        Kind.Run ∉ (runMain sampleEnvNoClient).world.kinds) ∧
      ((runMain sampleEnvRunRejected).isFatal = true ∧
        fatalCalls (runMain sampleEnvRunRejected).world.trace =
          [("client stopped: %v", .wrapped "handshake" (.plain "login rejected"))]) ∧
      (∃ w, runMain sampleEnvRunNil = .ok () w) ∧
      (∃ w, runMain sampleEnv = .ok () w) ∧
      ((∃ w, runMain sampleEnvRunWrappedCancel = .ok () w) ∧
        fatalCalls (runMain sampleEnvRunWrappedCancel).world.trace = []) :=
  ⟨⟨sampleConsts_injective, by decide, rfl, by decide, by decide⟩,
    ⟨(C5_fatal_iff sampleEnvNoClient sampleConsts_injective).1.mpr (Or.inl (by decide)),
      ((C5_fatal_iff sampleEnvNoClient sampleConsts_injective).2.1 (by decide)).2.2.1⟩,
    ⟨(C5_fatal_iff sampleEnvRunRejected sampleConsts_injective).1.mpr
        (Or.inr ⟨_, rfl, by decide⟩),
      ((C5_fatal_iff sampleEnvRunRejected sampleConsts_injective).2.2.1 rfl _ rfl
        (by decide)).2.2.2⟩,
    ((C5_fatal_iff sampleEnvRunNil sampleConsts_injective).2.2.2 rfl (Or.inl rfl)).1,
    ((C5_fatal_iff sampleEnv sampleConsts_injective).2.2.2 rfl
      (Or.inr ⟨_, rfl, by decide⟩)).1,
    ⟨((C5_fatal_iff sampleEnvRunWrappedCancel sampleConsts_injective).2.2.2 rfl
        (Or.inr ⟨_, rfl, by decide⟩)).1,
      ((C5_fatal_iff sampleEnvRunWrappedCancel sampleConsts_injective).2.2.2 rfl
        (Or.inr ⟨_, rfl, by decide⟩)).2.2.2⟩⟩

theorem defaultHandler_eq (w : World) (t : MessageType) :
    hasDefaultHandler w t =
      match (w.registry.map (fun m => (m.Type_, m.Handler.isSome, (m.Factory ()).shape))).find?
          (fun x => decide (x.1 = t)) with
      | some x => x.2.1
      | none => false := by
  rw [← lookup_summary]
  unfold hasDefaultHandler
  cases h : Lookup w.registry t <;> rfl

theorem lookupHandler_isSome (w : World) (t : MessageType) :
    (lookupHandler w t).isSome = (hasSubscription w t || hasDefaultHandler w t) := by
  unfold lookupHandler hasSubscription hasDefaultHandler
  cases h1 : List.lookup t w.subscriptions with
  | some h => simp
  | none =>
    cases h2 : Lookup w.registry t <;> simp

theorem handlers_at (env : Env) (hinj : Function.Injective env.consts.typeId)
    (hn : env.newClientResult = none) (k : TypeConst) :
    hasSubscription (runMain env).world (env.consts.typeId k) =
        decide (k = .TypeCoinCommand ∨ k = .TypeQueryRsp) ∧
      hasDefaultHandler (runMain env).world (env.consts.typeId k) =
        decide (k = .TypeRegisterRsp ∨ k = .TypeLoginRsp ∨ k = .TypePong) := by
  obtain ⟨hs, hreg⟩ := main_setup env hinj hn
  have hb := typeId_beq env.consts hinj
  rw [defaultHandler_eq, hreg, hasSubscription, hs]
  cases k <;> simp [hinj.eq_iff, hb, List.lookup, List.find?]

theorem handlers_elsewhere (env : Env) (hinj : Function.Injective env.consts.typeId)
    (hn : env.newClientResult = none) (t : MessageType) (ht : ∀ k, t ≠ env.consts.typeId k) :
    hasSubscription (runMain env).world t = false ∧
      hasDefaultHandler (runMain env).world t = false := by
  obtain ⟨hs, hreg⟩ := main_setup env hinj hn
  rw [defaultHandler_eq, hreg, hasSubscription, hs]
  have h2 : ∀ k, ¬ env.consts.typeId k = t := fun k h => ht k h.symm
  have h3 : ∀ k, (t == env.consts.typeId k) = false := by
    intro k
    simp [ht k]
  simp [h2, h3, List.lookup, List.find?]

/-- C10: with pairwise distinct type constants and a client successfully created, a type has
a handler (a subscription or a default handler in its registry entry) exactly when it is one
of `TypeRegisterRsp`, `TypeLoginRsp`, `TypePong`, `TypeCoinCommand`, `TypeQueryRsp`; for each
of the other six registered types, `TypeError` among them, the lookup by subscription first
and registry default second finds no handler; and no type has both a subscription and a
default handler. -/
theorem C10_types_with_handler (env : Env) (hinj : Function.Injective env.consts.typeId)
    (hn : env.newClientResult = none) :
    (∀ t, (hasSubscription (runMain env).world t || hasDefaultHandler (runMain env).world t)
          = true ↔
        t ∈ [env.consts.typeId .TypeRegisterRsp, env.consts.typeId .TypeLoginRsp,
             env.consts.typeId .TypePong, env.consts.typeId .TypeCoinCommand,
             env.consts.typeId .TypeQueryRsp]) ∧
      (∀ k ∈ [TypeConst.TypeRegisterReq, .TypeLoginReq, .TypePing, .TypeCoinAck,
            .TypeQueryReq, .TypeError],
        lookupHandler (runMain env).world (env.consts.typeId k) = none) ∧
      (∀ t, ¬ (hasSubscription (runMain env).world t = true ∧
          hasDefaultHandler (runMain env).world t = true)) := by
  refine ⟨?_, ?_, ?_⟩
  · intro t
    by_cases ht : ∃ k, t = env.consts.typeId k
    · obtain ⟨k, rfl⟩ := ht
      obtain ⟨h1, h2⟩ := handlers_at env hinj hn k
      rw [h1, h2]
      cases k <;> simp [hinj.eq_iff]
    · have ht2 : ∀ k, t ≠ env.consts.typeId k := fun k h => ht ⟨k, h⟩
      obtain ⟨h1, h2⟩ := handlers_elsewhere env hinj hn t ht2
      rw [h1, h2]
      simp [ht2]
  · intro k hk
    have h := lookupHandler_isSome (runMain env).world (env.consts.typeId k)
    obtain ⟨h1, h2⟩ := handlers_at env hinj hn k
    rw [h1, h2] at h
    simp only [List.mem_cons, List.mem_nil_iff, or_false] at hk
    rcases hk with rfl | rfl | rfl | rfl | rfl | rfl <;>
      exact Option.not_isSome_iff_eq_none.mp (by rw [h]; decide)
  · intro t
    by_cases ht : ∃ k, t = env.consts.typeId k
    · obtain ⟨k, rfl⟩ := ht
      obtain ⟨h1, h2⟩ := handlers_at env hinj hn k
      rw [h1, h2]
      cases k <;> decide
    · have ht2 : ∀ k, t ≠ env.consts.typeId k := fun k h => ht ⟨k, h⟩
      obtain ⟨h1, h2⟩ := handlers_elsewhere env hinj hn t ht2
      rw [h1, h2]
      simp

/-- C10, in the sample process: an inbound message of `TypeError` (11) finds no handler. -/
theorem C10_types_with_handler_witness :
    Function.Injective sampleEnv.consts.typeId ∧ sampleEnv.newClientResult = none ∧
      lookupHandler (runMain sampleEnv).world 11 = none :=
  ⟨sampleConsts_injective, rfl,
    (C10_types_with_handler sampleEnv sampleConsts_injective rfl).2.1 .TypeError (by simp)⟩

theorem RegistersOnly.one (m : MessageMeta) : RegistersOnly 1 (MustRegister m) := by
  intro w
  unfold MustRegister
  cases h : Register w.registry m with
  | ok r => left; exact ⟨_, rfl, by simp [World.kinds, MainEvent.kind]⟩
  | error e => right; exact ⟨_, 1, le_refl 1, rfl, by simp [World.kinds, MainEvent.kind]⟩

theorem RegistersOnly.seq {a b : Nat} {x y : M Unit} (hx : RegistersOnly a x)
    (hy : RegistersOnly b y) : RegistersOnly (a + b) (x >>= fun _ => y) := by
  intro w
  rcases hx w with ⟨w1, h1, k1⟩ | ⟨w1, k, hk, h1, k1⟩
  · rcases hy w1 with ⟨w2, h2, k2⟩ | ⟨w2, j, hj, h2, k2⟩
    · left
      refine ⟨w2, by simp [bind, M.bind, h1, h2], ?_⟩
      rw [k2, k1, List.append_assoc, List.replicate_add]
    · right
      refine ⟨w2, a + j, by omega, by simp [bind, M.bind, h1, h2], ?_⟩
      rw [k2, k1, List.append_assoc, List.replicate_add]
  · right
    exact ⟨w1, k, by omega, by simp [bind, M.bind, h1], k1⟩

theorem registerMessages_registersOnly (c : Consts) : RegistersOnly 11 (registerMessages c) :=
  RegistersOnly.seq (a := 1) (.one _) <| .seq (a := 1) (.one _) <| .seq (a := 1) (.one _) <|
  .seq (a := 1) (.one _) <| .seq (a := 1) (.one _) <| .seq (a := 1) (.one _) <|
  .seq (a := 1) (.one _) <| .seq (a := 1) (.one _) <| .seq (a := 1) (.one _) <|
  .seq (a := 1) (.one _) <| .one _

theorem registerMessages_ok_kinds (c : Consts) (w w1 : World) (u : Unit)
    (h : registerMessages c w = .ok u w1) :
    w1.kinds = w.kinds ++ List.replicate 11 .MustRegister := by
  rcases registerMessages_registersOnly c w with ⟨w2, h2, k2⟩ | ⟨w2, k, _, h2, _⟩
  · rw [h2] at h
    cases h
    exact k2
  · rw [h2] at h
    cases h

theorem registerMessages_exit_kinds (c : Consts) (w w1 : World) (f : Fatal)
    (h : registerMessages c w = .exit f w1) :
    f = .registerConflict ∧ ∃ k, k ≤ 11 ∧ w1.kinds = w.kinds ++ List.replicate k .MustRegister := by
  rcases registerMessages_registersOnly c w with ⟨w2, h2, _⟩ | ⟨w2, k, hk, h2, k2⟩
  · rw [h2] at h
    cases h
  · rw [h2] at h
    cases h
    exact ⟨rfl, k, hk, k2⟩

theorem main_kinds (env : Env) :
    (∃ k, k ≤ 11 ∧
        (runMain env).world.kinds = .NotifyContext :: List.replicate k .MustRegister) ∨
      (runMain env).world.kinds =
        .NotifyContext :: List.replicate 11 .MustRegister ++ [.Now, .NewClient, .Fatalf] ∨
      (runMain env).world.kinds =
        .NotifyContext :: List.replicate 11 .MustRegister ++
          [.Now, .NewClient, .Subscribe (env.consts.typeId .TypeCoinCommand),
           .Subscribe (env.consts.typeId .TypeQueryRsp), .Println, .Run, .stop] ∨
      (runMain env).world.kinds =
        .NotifyContext :: List.replicate 11 .MustRegister ++
          [.Now, .NewClient, .Subscribe (env.consts.typeId .TypeCoinCommand),
           .Subscribe (env.consts.typeId .TypeQueryRsp), .Println, .Run, .Fatalf] := by
  simp only [runMain, main, bind, M.bind, emit]
  split
  · rename_i u w1 heq
    have hk := registerMessages_ok_kinds _ _ _ _ heq
    right
    rcases hn : env.newClientResult with _ | e1
    · rcases hr : env.runResult with _ | e2
      · right; left
        simp [bind, M.bind, emit, NewClient, Subscribe, Run, hn, hr, Res.world, World.kinds, MainEvent.kind, World.initial] at hk ⊢
        simp [hk]
      · cases hc : errorsIs e2 .Canceled
        · right; right
          simp [bind, M.bind, emit, NewClient, Subscribe, Run, hn, hr, Res.world, World.kinds, MainEvent.kind, hc, Fatalf, World.initial] at hk ⊢
          simp [hk]
        · right; left
          simp [bind, M.bind, emit, NewClient, Subscribe, Run, hn, hr, Res.world, World.kinds, MainEvent.kind, hc, Fatalf, World.initial] at hk ⊢
          simp [hk]
    · left
      simp [bind, M.bind, emit, NewClient, Subscribe, Run, hn, Res.world, World.kinds, MainEvent.kind, Fatalf, World.initial] at hk ⊢
      simp [hk]
  · rename_i f w1 heq
    obtain ⟨_, k, hk, hks⟩ := registerMessages_exit_kinds _ _ _ _ heq
    left
    refine ⟨k, hk, ?_⟩
    simpa [Res.world, World.kinds, World.initial, MainEvent.kind] using hks

theorem replicate_eleven :
    List.replicate 11 Kind.MustRegister =
      [.MustRegister, .MustRegister, .MustRegister, .MustRegister, .MustRegister,
       .MustRegister, .MustRegister, .MustRegister, .MustRegister, .MustRegister,
       .MustRegister] := rfl

theorem split_index {α : Type} {l pre post : List α} {x : α} (h : l = pre ++ x :: post) :
    ∃ i, i < l.length ∧ pre = l.take i ∧ l[i]? = some x ∧ post = l.drop (i + 1) := by
  subst h
  refine ⟨pre.length, by simp, by simp, ?_, by simp⟩
  rw [List.getElem?_append_right (le_refl _)]
  simp

/-- C4: in every run of `main`, the call of `NewClient` comes after eleven `MustRegister`
calls and no `MustRegister` follows it; every `Subscribe` call comes after the call of
`NewClient` and before the call of `Run`; when `Run` is called, the eleven registrations, the
call of `NewClient` and the two `Subscribe` calls for `TypeCoinCommand` and `TypeQueryRsp`
precede it and neither a registration nor a `Subscribe` nor a second `Run` follows; `Run` is
called at most once. -/
theorem C4_call_order (env : Env) :
    (∀ pre post, (runMain env).world.kinds = pre ++ .NewClient :: post →
        pre.count .MustRegister = 11 ∧ Kind.MustRegister ∉ post) ∧
      (∀ pre post t, (runMain env).world.kinds = pre ++ .Subscribe t :: post →
        Kind.NewClient ∈ pre ∧ Kind.Run ∉ pre ∧ Kind.Run ∈ post) ∧
      (∀ pre post, (runMain env).world.kinds = pre ++ .Run :: post →
        pre.count .MustRegister = 11 ∧ Kind.MustRegister ∉ post ∧ Kind.NewClient ∈ pre ∧
        Kind.Subscribe (env.consts.typeId .TypeCoinCommand) ∈ pre ∧
        Kind.Subscribe (env.consts.typeId .TypeQueryRsp) ∈ pre ∧
        (∀ t, Kind.Subscribe t ∉ post) ∧ Kind.Run ∉ post) ∧
      (runMain env).world.kinds.count .Run ≤ 1 := by
  rcases main_kinds env with ⟨k, _, hk⟩ | hk | hk | hk
  · rw [hk]
    refine ⟨?_, ?_, ?_, ?_⟩
    · intro pre post h
      have : Kind.NewClient ∈ Kind.NotifyContext :: List.replicate k Kind.MustRegister := by
        rw [h]; simp
      simp [List.mem_replicate] at this
    · intro pre post t h
      have : Kind.Subscribe t ∈ Kind.NotifyContext :: List.replicate k Kind.MustRegister := by
        rw [h]; simp
      simp [List.mem_replicate] at this
    · intro pre post h
      have : Kind.Run ∈ Kind.NotifyContext :: List.replicate k Kind.MustRegister := by
        rw [h]; simp
      simp [List.mem_replicate] at this
    · simp [List.count_cons, List.count_replicate]
  all_goals
    rw [hk, replicate_eleven]
    refine ⟨?_, ?_, ?_, ?_⟩
    · intro pre post h
      obtain ⟨i, hi, rfl, hx, rfl⟩ := split_index h
      simp at hi
      interval_cases i <;> simp at hx ⊢
    · intro pre post t h
      obtain ⟨i, hi, rfl, hx, rfl⟩ := split_index h
      simp at hi
      interval_cases i <;> simp at hx ⊢
    · intro pre post h
      obtain ⟨i, hi, rfl, hx, rfl⟩ := split_index h
      simp at hi
      interval_cases i <;> simp at hx ⊢
    · simp

/-- C4, in the sample process: the client is created after the eleven registrations and
before the two subscriptions and the run. -/
theorem C4_call_order_witness :
    (runMain sampleEnv).world.kinds =
        [.NotifyContext, .MustRegister, .MustRegister, .MustRegister, .MustRegister,
         .MustRegister, .MustRegister, .MustRegister, .MustRegister, .MustRegister,
         .MustRegister, .MustRegister, .Now] ++
          .NewClient :: [.Subscribe 7, .Subscribe 10, .Println, .Run, .stop] ∧
      Kind.MustRegister ∉ [Kind.Subscribe 7, .Subscribe 10, .Println, .Run, .stop] :=
  ⟨by decide,
    ((C4_call_order sampleEnv).1
      [.NotifyContext, .MustRegister, .MustRegister, .MustRegister, .MustRegister,
       .MustRegister, .MustRegister, .MustRegister, .MustRegister, .MustRegister,
       .MustRegister, .MustRegister, .Now]
      [.Subscribe 7, .Subscribe 10, .Println, .Run, .stop] (by decide)).2⟩

/-! ## Theorems: binary64 rounding and the heartbeat -/

theorem roundHalfEven_intCast (n : ℤ) : roundHalfEven (n : ℚ) = n := by
  simp [roundHalfEven]

theorem floor_le_roundHalfEven (q : ℚ) : ⌊q⌋ ≤ roundHalfEven q := by
  unfold roundHalfEven
  simp only
  split_ifs <;> omega

theorem roundHalfEven_le_floor_add_one (q : ℚ) : roundHalfEven q ≤ ⌊q⌋ + 1 := by
  unfold roundHalfEven
  simp only
  split_ifs <;> omega

theorem roundHalfEven_mono {q r : ℚ} (h : q ≤ r) : roundHalfEven q ≤ roundHalfEven r := by
  rcases lt_or_eq_of_le (Int.floor_mono h) with hlt | heq
  · calc roundHalfEven q ≤ ⌊q⌋ + 1 := roundHalfEven_le_floor_add_one q
      _ ≤ ⌊r⌋ := hlt
      _ ≤ roundHalfEven r := floor_le_roundHalfEven r
  · unfold roundHalfEven
    simp only
    rw [heq]
    have hq : q - (⌊r⌋ : ℚ) ≤ r - (⌊r⌋ : ℚ) := by linarith
    split_ifs <;> first | omega | linarith

theorem roundHalfEven_sub_le (q : ℚ) : (roundHalfEven q : ℚ) - q ≤ 1 / 2 := by
  have h1 := Int.floor_le q
  have h2 := Int.lt_floor_add_one q
  unfold roundHalfEven
  simp only
  split_ifs <;> push_cast <;> linarith

theorem sub_roundHalfEven_le (q : ℚ) : q - (roundHalfEven q : ℚ) ≤ 1 / 2 := by
  have h1 := Int.floor_le q
  have h2 := Int.lt_floor_add_one q
  unfold roundHalfEven
  simp only
  split_ifs <;> push_cast <;> linarith

theorem f64Round_zero : f64Round 0 = 0 := by
  simp [f64Round]

theorem ulp_pos (e : ℤ) : (0 : ℚ) < 2 ^ (e - 52) := by positivity

theorem zpow_split_lo (e : ℤ) : (2 : ℚ) ^ e = ((2 ^ 52 : ℤ) : ℚ) * 2 ^ (e - 52) := by
  have h : (2 : ℚ) ^ e = 2 ^ (52 : ℤ) * 2 ^ (e - 52) := by
    rw [← zpow_add₀ (by norm_num : (2 : ℚ) ≠ 0)]
    congr 1
    ring
  rw [h]
  norm_num

theorem zpow_split_hi (e : ℤ) : (2 : ℚ) ^ (e + 1) = ((2 ^ 53 : ℤ) : ℚ) * 2 ^ (e - 52) := by
  have h : (2 : ℚ) ^ (e + 1) = 2 ^ (53 : ℤ) * 2 ^ (e - 52) := by
    rw [← zpow_add₀ (by norm_num : (2 : ℚ) ≠ 0)]
    congr 1
    ring
  rw [h]
  norm_num

theorem f64Round_of_pos {x : ℚ} (hx : 0 < x) :
    f64Round x = roundHalfEven (x / 2 ^ (Int.log 2 x - 52)) * 2 ^ (Int.log 2 x - 52) := by
  unfold f64Round
  rw [if_neg hx.ne', abs_of_pos hx]

theorem log_bounds {x : ℚ} (hx : 0 < x) :
    (2 : ℚ) ^ Int.log 2 x ≤ x ∧ x < (2 : ℚ) ^ (Int.log 2 x + 1) := by
  have hlo := Int.zpow_log_le_self (b := 2) (by norm_num) hx
  have hhi := Int.lt_zpow_succ_log_self (b := 2) (by norm_num) x
  simp only [Nat.cast_ofNat] at hlo hhi
  exact ⟨hlo, hhi⟩

theorem f64Round_bounds {x : ℚ} (hx : 0 < x) :
    (2 : ℚ) ^ Int.log 2 x ≤ f64Round x ∧ f64Round x ≤ (2 : ℚ) ^ (Int.log 2 x + 1) := by
  obtain ⟨hlo, hhi⟩ := log_bounds hx
  rw [f64Round_of_pos hx]
  have hu := ulp_pos (Int.log 2 x)
  constructor
  · have h1 : (((2 ^ 52 : ℤ) : ℤ) : ℚ) ≤ x / 2 ^ (Int.log 2 x - 52) := by
      rw [le_div_iff₀ hu, ← zpow_split_lo]
      exact hlo
    have h2 := roundHalfEven_mono h1
    rw [roundHalfEven_intCast] at h2
    rw [zpow_split_lo]
    exact mul_le_mul_of_nonneg_right (by exact_mod_cast h2) hu.le
  · have h1 : x / 2 ^ (Int.log 2 x - 52) ≤ (((2 ^ 53 : ℤ) : ℤ) : ℚ) := by
      rw [div_le_iff₀ hu, ← zpow_split_hi]
      exact hhi.le
    have h2 := roundHalfEven_mono h1
    rw [roundHalfEven_intCast] at h2
    rw [zpow_split_hi]
    exact mul_le_mul_of_nonneg_right (by exact_mod_cast h2) hu.le

theorem f64Round_nonneg {x : ℚ} (hx : 0 ≤ x) : 0 ≤ f64Round x := by
  rcases hx.eq_or_lt with h | h
  · rw [← h, f64Round_zero]
  · exact le_trans (by positivity) (f64Round_bounds h).1

theorem f64Round_mono {x y : ℚ} (hx : 0 ≤ x) (h : x ≤ y) : f64Round x ≤ f64Round y := by
  rcases hx.eq_or_lt with h0 | hpos
  · rw [← h0, f64Round_zero]
    exact f64Round_nonneg (h0 ▸ h)
  · have hy : 0 < y := lt_of_lt_of_le hpos h
    rcases (Int.log_mono_right (b := 2) hpos h).eq_or_lt with he | he
    · rw [f64Round_of_pos hpos, f64Round_of_pos hy, he]
      have hu := ulp_pos (Int.log 2 y)
      have h1 : x / 2 ^ (Int.log 2 y - 52) ≤ y / 2 ^ (Int.log 2 y - 52) :=
        div_le_div_of_nonneg_right h hu.le
      have h2 := roundHalfEven_mono h1
      exact mul_le_mul_of_nonneg_right (by exact_mod_cast h2) hu.le
    · calc f64Round x ≤ (2 : ℚ) ^ (Int.log 2 x + 1) := (f64Round_bounds hpos).2
        _ ≤ (2 : ℚ) ^ Int.log 2 y := zpow_le_zpow_right₀ (by norm_num) he
        _ ≤ f64Round y := (f64Round_bounds hy).1

theorem f64Round_sub_le {x : ℚ} (hx : 0 < x) :
    f64Round x - x ≤ 2 ^ (Int.log 2 x - 52) / 2 := by
  rw [f64Round_of_pos hx]
  have hu := ulp_pos (Int.log 2 x)
  have h := roundHalfEven_sub_le (x / 2 ^ (Int.log 2 x - 52))
  have hx2 : x = x / 2 ^ (Int.log 2 x - 52) * 2 ^ (Int.log 2 x - 52) := by
    field_simp
  calc (roundHalfEven (x / 2 ^ (Int.log 2 x - 52)) : ℚ) * 2 ^ (Int.log 2 x - 52) - x
      = ((roundHalfEven (x / 2 ^ (Int.log 2 x - 52)) : ℚ) - x / 2 ^ (Int.log 2 x - 52)) *
          2 ^ (Int.log 2 x - 52) := by
        rw [sub_mul, ← hx2]
    _ ≤ 1 / 2 * 2 ^ (Int.log 2 x - 52) := mul_le_mul_of_nonneg_right h hu.le
    _ = 2 ^ (Int.log 2 x - 52) / 2 := by ring

theorem f64Round_natCast (n : ℕ) (hn : n < 2 ^ 53) : f64Round (n : ℚ) = n := by
  rcases Nat.eq_zero_or_pos n with h0 | hpos
  · subst h0
    simp [f64Round_zero]
  · have hq : (0 : ℚ) < n := by exact_mod_cast hpos
    rw [f64Round_of_pos hq, Int.log_natCast]
    have he : Nat.log 2 n < 53 := Nat.log_lt_of_lt_pow hpos.ne' hn
    obtain ⟨k, hk⟩ := Nat.exists_eq_add_of_le (Nat.lt_succ_iff.mp he)
    have hz : ((Nat.log 2 n : ℕ) : ℤ) - 52 = -(k : ℤ) := by omega
    rw [hz, zpow_neg, zpow_natCast]
    have hdiv : (n : ℚ) / ((2 : ℚ) ^ k)⁻¹ = ((n * 2 ^ k : ℤ) : ℚ) := by
      push_cast
      field_simp
    rw [hdiv, roundHalfEven_intCast]
    push_cast
    field_simp

theorem f64Round_intCast (n : ℤ) (h0 : 0 ≤ n) (hn : n < 2 ^ 53) : f64Round (n : ℚ) = n := by
  obtain ⟨m, rfl⟩ := Int.eq_ofNat_of_zero_le h0
  have hm : m < 2 ^ 53 := by exact_mod_cast hn
  simpa using f64Round_natCast m hm

theorem roundHalfEven_eq_of (q : ℚ) (k : ℤ) (h1 : (k : ℚ) - 1 / 2 < q) (h2 : q < k + 1 / 2) :
    roundHalfEven q = k := by
  have a := roundHalfEven_sub_le q
  have b := sub_roundHalfEven_le q
  have c1 : ((roundHalfEven q : ℤ) : ℚ) < ((k + 1 : ℤ) : ℚ) := by push_cast; linarith
  have c2 : ((k - 1 : ℤ) : ℚ) < ((roundHalfEven q : ℤ) : ℚ) := by push_cast; linarith
  have d1 : roundHalfEven q < k + 1 := by exact_mod_cast c1
  have d2 : k - 1 < roundHalfEven q := by exact_mod_cast c2
  omega

theorem log_eq_of {x : ℚ} (e : ℤ) (hlo : (2 : ℚ) ^ e ≤ x) (hhi : x < (2 : ℚ) ^ (e + 1)) :
    Int.log 2 x = e := by
  have hx : 0 < x := lt_of_lt_of_le (by positivity) hlo
  have h1 : e ≤ Int.log 2 x := by
    rw [← Int.zpow_le_iff_le_log (by norm_num) hx]
    simpa using hlo
  have h2 : Int.log 2 x < e + 1 := by
    rw [← Int.lt_zpow_iff_log_lt (by norm_num) hx]
    simpa using hhi
  omega

theorem f64Round_eq_of {x : ℚ} (e k : ℤ) (hlo : (2 : ℚ) ^ e ≤ x) (hhi : x < (2 : ℚ) ^ (e + 1))
    (h1 : (k : ℚ) - 1 / 2 < x / 2 ^ (e - 52)) (h2 : x / 2 ^ (e - 52) < k + 1 / 2) :
    f64Round x = k * 2 ^ (e - 52) := by
  have hx : 0 < x := lt_of_lt_of_le (by positivity) hlo
  rw [f64Round_of_pos hx, log_eq_of e hlo hhi, roundHalfEven_eq_of _ k h1 h2]

theorem frac_example :
    f64Round (999999999 / 1000000000) = 9007199245733793 / 9007199254740992 := by
  have h := f64Round_eq_of (x := 999999999 / 1000000000) (-1) 9007199245733793
    (by norm_num) (by norm_num) (by norm_num) (by norm_num)
  rw [h]
  norm_num

theorem seconds_example : DurationSeconds 16777216999999999 = 16777217 := by
  have hs : Int.tdiv 16777216999999999 Second = 16777216 := by decide
  have hn : Int.tmod 16777216999999999 Second = 999999999 := by decide
  unfold DurationSeconds f64Add f64Div f64OfInt
  simp only [hs, hn]
  rw [f64Round_intCast 16777216 (by norm_num) (by norm_num),
    f64Round_intCast 999999999 (by norm_num) (by norm_num)]
  have hf : f64Round (((999999999 : ℤ) : ℚ) / 1000000000) =
      9007199245733793 / 9007199254740992 := by
    have := frac_example
    norm_num at this ⊢
    exact this
  rw [hf]
  have h := f64Round_eq_of
    (x := ((16777216 : ℤ) : ℚ) + 9007199245733793 / 9007199254740992) 24
    4503599895805952 (by norm_num) (by norm_num) (by norm_num) (by norm_num)
  rw [h]
  norm_num

theorem frac_bounds (n : ℤ) (h0 : 0 ≤ n) (h1 : n < 1000000000) :
    0 ≤ f64Round ((n : ℚ) / 1000000000) ∧
      f64Round ((n : ℚ) / 1000000000) ≤ 9007199245733793 / 9007199254740992 := by
  have hn0 : (0 : ℚ) ≤ n := by exact_mod_cast h0
  have hn1 : (n : ℚ) ≤ 999999999 := by
    have : n ≤ 999999999 := by omega
    exact_mod_cast this
  have hq : (0 : ℚ) ≤ (n : ℚ) / 1000000000 := by positivity
  refine ⟨f64Round_nonneg hq, ?_⟩
  rw [← frac_example]
  apply f64Round_mono hq
  rw [div_le_div_iff_of_pos_right (by norm_num)]
  exact hn1

theorem durationSeconds_eq {d : ℤ} (h0 : 0 ≤ d) (hb : d < 2 ^ 32 * Second) :
    DurationSeconds d =
      f64Round (((d / Second : ℤ) : ℚ) + f64Round (((d % Second : ℤ) : ℚ) / 1000000000)) := by
  have hS : (0 : ℤ) ≤ Second := by decide
  have hsec0 : 0 ≤ d / Second := Int.ediv_nonneg h0 hS
  have hsec1 : d / Second < 2 ^ 32 := by
    apply Int.ediv_lt_of_lt_mul (by decide)
    exact hb
  have hns0 : 0 ≤ d % Second := Int.emod_nonneg d (by decide)
  have hns1 : d % Second < 1000000000 := Int.emod_lt_of_pos d (by decide)
  unfold DurationSeconds f64Add f64Div f64OfInt
  simp only [Int.tdiv_eq_ediv h0 hS, Int.tmod_eq_emod h0 hS]
  rw [f64Round_intCast _ hsec0 (by omega), f64Round_intCast _ hns0 (by omega)]

theorem durationSeconds_bounds {d : ℤ} (h0 : 0 ≤ d) (hb : d < 2 ^ 32 * Second) :
    ((d / Second : ℤ) : ℚ) ≤ DurationSeconds d ∧
      DurationSeconds d ≤ ((d / Second + 1 : ℤ) : ℚ) := by
  have hS : (0 : ℤ) ≤ Second := by decide
  have hsec0 : 0 ≤ d / Second := Int.ediv_nonneg h0 hS
  have hsec1 : d / Second < 2 ^ 32 := Int.ediv_lt_of_lt_mul (by decide) hb
  have hns0 : 0 ≤ d % Second := Int.emod_nonneg d (by decide)
  have hns1 : d % Second < 1000000000 := Int.emod_lt_of_pos d (by decide)
  obtain ⟨f0, f1⟩ := frac_bounds _ hns0 hns1
  have hq0 : (0 : ℚ) ≤ ((d / Second : ℤ) : ℚ) := by exact_mod_cast hsec0
  rw [durationSeconds_eq h0 hb]
  constructor
  · calc ((d / Second : ℤ) : ℚ) = f64Round ((d / Second : ℤ) : ℚ) :=
        (f64Round_intCast _ hsec0 (by omega)).symm
      _ ≤ _ := f64Round_mono hq0 (by linarith)
  · calc _ ≤ f64Round ((d / Second + 1 : ℤ) : ℚ) := by
          apply f64Round_mono (by linarith)
          push_cast
          have : (9007199245733793 : ℚ) / 9007199254740992 ≤ 1 := by norm_num
          linarith
      _ = ((d / Second + 1 : ℤ) : ℚ) := f64Round_intCast _ (by omega) (by omega)

theorem durationSeconds_mono {d1 d2 : ℤ} (h0 : 0 ≤ d1) (h : d1 ≤ d2)
    (hb : d2 < 2 ^ 32 * Second) : DurationSeconds d1 ≤ DurationSeconds d2 := by
  have hS : (0 : ℤ) < Second := by decide
  have hb1 : d1 < 2 ^ 32 * Second := lt_of_le_of_lt h hb
  have h02 : 0 ≤ d2 := le_trans h0 h
  rcases (Int.ediv_le_ediv hS h).eq_or_lt with he | hl
  · rw [durationSeconds_eq h0 hb1, durationSeconds_eq h02 hb, he]
    have hsec0 : 0 ≤ d2 / Second := Int.ediv_nonneg h02 hS.le
    have hq0 : (0 : ℚ) ≤ ((d2 / Second : ℤ) : ℚ) := by exact_mod_cast hsec0
    have hm : d1 % Second ≤ d2 % Second := by
      have e1 := Int.emod_add_ediv d1 Second
      have e2 := Int.emod_add_ediv d2 Second
      rw [he] at e1
      omega
    have hns0 : 0 ≤ d1 % Second := Int.emod_nonneg d1 (by decide)
    have hfq : (0 : ℚ) ≤ ((d1 % Second : ℤ) : ℚ) / 1000000000 := by
      have : (0 : ℚ) ≤ ((d1 % Second : ℤ) : ℚ) := by exact_mod_cast hns0
      positivity
    have hf : f64Round (((d1 % Second : ℤ) : ℚ) / 1000000000) ≤
        f64Round (((d2 % Second : ℤ) : ℚ) / 1000000000) := by
      apply f64Round_mono hfq
      rw [div_le_div_iff_of_pos_right (by norm_num)]
      exact_mod_cast hm
    apply f64Round_mono
    · have := f64Round_nonneg hfq
      linarith
    · linarith
  · calc DurationSeconds d1 ≤ ((d1 / Second + 1 : ℤ) : ℚ) := (durationSeconds_bounds h0 hb1).2
      _ ≤ ((d2 / Second : ℤ) : ℚ) := by exact_mod_cast hl
      _ ≤ DurationSeconds d2 := (durationSeconds_bounds h02 hb).1

theorem durationSeconds_lt_succ {d : ℤ} (h0 : 0 ≤ d) (hb : d < 2 ^ 24 * Second) :
    DurationSeconds d < ((d / Second + 1 : ℤ) : ℚ) := by
  have hS : (0 : ℤ) ≤ Second := by decide
  have hsec0 : 0 ≤ d / Second := Int.ediv_nonneg h0 hS
  have hsec1 : d / Second < 2 ^ 24 := Int.ediv_lt_of_lt_mul (by decide) hb
  have hns0 : 0 ≤ d % Second := Int.emod_nonneg d (by decide)
  have hns1 : d % Second < 1000000000 := Int.emod_lt_of_pos d (by decide)
  obtain ⟨f0, f1⟩ := frac_bounds _ hns0 hns1
  have hq0 : (0 : ℚ) ≤ ((d / Second : ℤ) : ℚ) := by exact_mod_cast hsec0
  have hq1 : ((d / Second : ℤ) : ℚ) ≤ 2 ^ 24 - 1 := by
    have : d / Second ≤ 2 ^ 24 - 1 := by omega
    exact_mod_cast this
  have hb2 : d < 2 ^ 32 * Second := lt_of_lt_of_le hb (by decide)
  rw [durationSeconds_eq h0 hb2]
  push_cast
  generalize ((d / Second : ℤ) : ℚ) = s at hq0 hq1 ⊢
  generalize f64Round (((d % Second : ℤ) : ℚ) / 1000000000) = f at f0 f1 ⊢
  have hc : (9007199245733793 : ℚ) / 9007199254740992 + 1 / 536870912 / 2 < 1 := by norm_num
  have hx0 : 0 ≤ s + f := by linarith
  rcases hx0.eq_or_lt with hz | hpos
  · rw [← hz, f64Round_zero]
    linarith
  · have hx24 : s + f < (2 : ℚ) ^ (24 : ℤ) := by
      have h24 : (2 : ℚ) ^ (24 : ℤ) = 16777216 := by norm_num
      have hq2 : s ≤ 16777216 - 1 := by
        have h24b : (2 : ℚ) ^ 24 = 16777216 := by norm_num
        rw [h24b] at hq1
        exact hq1
      rw [h24]
      linarith
    have hlog : Int.log 2 (s + f) < 24 := by
      rw [← Int.lt_zpow_iff_log_lt (by norm_num) hpos]
      simpa using hx24
    have herr := f64Round_sub_le hpos
    have hu : (2 : ℚ) ^ (Int.log 2 (s + f) - 52) ≤ 2 ^ (-29 : ℤ) :=
      zpow_le_zpow_right₀ (by norm_num) (by omega)
    have h29 : (2 : ℚ) ^ (-29 : ℤ) = 1 / 536870912 := by norm_num
    rw [h29] at hu
    linarith

theorem edge_seconds_example : DurationSeconds 4294967295999999999 = 4294967296 := by
  have hs : Int.tdiv 4294967295999999999 Second = 4294967295 := by decide
  have hn : Int.tmod 4294967295999999999 Second = 999999999 := by decide
  unfold DurationSeconds f64Add f64Div f64OfInt
  simp only [hs, hn]
  rw [f64Round_intCast 4294967295 (by norm_num) (by norm_num),
    f64Round_intCast 999999999 (by norm_num) (by norm_num)]
  have hf : f64Round (((999999999 : ℤ) : ℚ) / 1000000000) =
      9007199245733793 / 9007199254740992 := by
    have := frac_example
    norm_num at this ⊢
    exact this
  rw [hf]
  have h := f64Round_eq_of
    (x := ((4294967295 : ℤ) : ℚ) + 9007199245733793 / 9007199254740992) 31
    9007199254740992 (by norm_num) (by norm_num) (by norm_num) (by norm_num)
  rw [h]
  norm_num

theorem toUint32_of_range {f : ℚ} (h0 : 0 ≤ f) (h1 : f < 2 ^ 32) :
    toUint32 f = ⌊f⌋.toNat := by
  have hf0 : 0 ≤ ⌊f⌋ := Int.floor_nonneg.mpr h0
  have hf1 : ⌊f⌋ < 2 ^ 32 := by
    rw [Int.floor_lt]
    exact_mod_cast h1
  unfold toUint32
  rw [if_pos h0, Int.emod_eq_of_lt hf0 hf1]

theorem wholeSecondsUptime_eq (start now : Time) (h0 : 0 ≤ Since start now)
    (hb : Since start now < 2 ^ 32 * Second) :
    wholeSecondsUptime start now = (Since start now / Second).toNat := by
  have hsec0 : 0 ≤ Since start now / Second := Int.ediv_nonneg h0 (by decide)
  have hsec1 : Since start now / Second < 2 ^ 32 := Int.ediv_lt_of_lt_mul (by decide) hb
  unfold wholeSecondsUptime
  rw [Int.emod_eq_of_lt hsec0 hsec1]

theorem uptime_floor {d : ℤ} (h0 : 0 ≤ d) (hb : d < (2 ^ 32 - 1) * Second) :
    toUint32 (DurationSeconds d) = ⌊DurationSeconds d⌋.toNat ∧
      d / Second ≤ ⌊DurationSeconds d⌋ ∧ ⌊DurationSeconds d⌋ ≤ d / Second + 1 := by
  have hb2 : d < 2 ^ 32 * Second := lt_of_lt_of_le hb (by decide)
  obtain ⟨hlo, hhi⟩ := durationSeconds_bounds h0 hb2
  have hsec0 : 0 ≤ d / Second := Int.ediv_nonneg h0 (by decide)
  have hsec1 : d / Second < 2 ^ 32 - 1 := Int.ediv_lt_of_lt_mul (by decide) hb
  have hq0 : (0 : ℚ) ≤ ((d / Second : ℤ) : ℚ) := by exact_mod_cast hsec0
  have hq1 : ((d / Second + 1 : ℤ) : ℚ) < 2 ^ 32 := by
    have : d / Second + 1 < 2 ^ 32 := by omega
    exact_mod_cast this
  refine ⟨toUint32_of_range (le_trans hq0 hlo) (lt_of_le_of_lt hhi hq1), ?_, ?_⟩
  · exact Int.le_floor.mpr hlo
  · have := Int.floor_mono hhi
    rwa [Int.floor_intCast] at this

theorem clientConfigs_append (l1 l2 : List MainEvent) :
    clientConfigs (l1 ++ l2) = clientConfigs l1 ++ clientConfigs l2 := by
  induction l1 with
  | nil => rfl
  | cons e l ih => cases e <;> simp [clientConfigs, ih]

theorem clientConfigs_of_kinds (l : List MainEvent)
    (h : Kind.NewClient ∉ l.map MainEvent.kind) : clientConfigs l = [] := by
  induction l with
  | nil => rfl
  | cons e l ih =>
    cases e <;> simp [clientConfigs, MainEvent.kind] at h ⊢ <;> exact ih (by simpa using h)

theorem main_clientConfigs (env : Env) :
    ∀ cfg ∈ clientConfigs (runMain env).world.trace,
      cfg.HeartbeatInterval = 60 * Second ∧
        cfg.HeartbeatFactory = heartbeatFactory env.start := by
  simp only [runMain, main, bind, M.bind, emit]
  split
  · rename_i u w1 heq
    have hk := registerMessages_ok_kinds _ _ _ _ heq
    have hc : clientConfigs w1.trace = [] := by
      apply clientConfigs_of_kinds
      have hk2 : w1.trace.map MainEvent.kind =
          Kind.NotifyContext :: List.replicate 11 Kind.MustRegister := by
        simpa [World.kinds, World.initial, MainEvent.kind] using hk
      rw [hk2]
      simp [List.mem_replicate]
    rcases hn : env.newClientResult with _ | e1
    · rcases hr : env.runResult with _ | e2
      · simp [bind, M.bind, emit, NewClient, Subscribe, Run, hn, hr, Res.world,
          clientConfigs_append, clientConfigs, hc]
      · cases hx : errorsIs e2 .Canceled <;>
          simp [bind, M.bind, emit, NewClient, Subscribe, Run, hn, hr, Res.world,
            clientConfigs_append, clientConfigs, hc, hx, Fatalf]
    · simp [bind, M.bind, emit, NewClient, hn, Res.world, clientConfigs_append,
        clientConfigs, hc, Fatalf]
  · rename_i f w1 heq
    obtain ⟨_, k, _, hks⟩ := registerMessages_exit_kinds _ _ _ _ heq
    have hc : clientConfigs w1.trace = [] := by
      apply clientConfigs_of_kinds
      have hk2 : w1.trace.map MainEvent.kind =
          Kind.NotifyContext :: List.replicate k Kind.MustRegister := by
        simpa [World.kinds, World.initial, MainEvent.kind] using hks
      rw [hk2]
      simp [List.mem_replicate]
    simp [Res.world, hc]

/-- C8, as amended: the heartbeat interval `main` configures is 60 seconds and the factory it
configures is the closure over `start`; each invocation builds its `Ping` from the clock
readings of that invocation: `Timestamp` is `UnixMilli()` modulo `2^64`, `Uptime` is the
`float64` value of `Duration.Seconds()` of the elapsed time with its fraction discarded.  For an
elapsed time of at least zero and below `2^32 - 1` seconds `Uptime` is the number of whole
seconds elapsed or one more, and it is that number when the elapsed time is below `2^24`
seconds.  For two invocations, `Timestamp` does not decrease when the Unix time is not negative
and does not decrease, and `Uptime` does not decrease when the elapsed time is not negative,
does not decrease and stays below `2^32 - 1` seconds. -/
theorem C8_heartbeat_ping (env : Env) (now1 now2 : Nat → Time) :
    (∀ cfg ∈ clientConfigs (runMain env).world.trace,
        cfg.HeartbeatInterval = 60 * Second ∧
          cfg.HeartbeatFactory = heartbeatFactory env.start) ∧
      heartbeatFactory env.start now1 =
        .Ping
          { Timestamp := ((now1 0).unixMilli % 2 ^ 64).toNat
            Uptime := toUint32 (DurationSeconds (Since env.start (now1 1))) } ∧
      (0 ≤ Since env.start (now1 1) → Since env.start (now1 1) < (2 ^ 32 - 1) * Second →
        toUint32 (DurationSeconds (Since env.start (now1 1))) =
            wholeSecondsUptime env.start (now1 1) ∨
          toUint32 (DurationSeconds (Since env.start (now1 1))) =
            wholeSecondsUptime env.start (now1 1) + 1) ∧
      (0 ≤ Since env.start (now1 1) → Since env.start (now1 1) < 2 ^ 24 * Second →
        toUint32 (DurationSeconds (Since env.start (now1 1))) =
          wholeSecondsUptime env.start (now1 1)) ∧
      (0 ≤ (now1 0).unixMilli → (now1 0).unixMilli ≤ (now2 0).unixMilli →
        (now2 0).unixMilli < 2 ^ 63 →
        toUint64 (now1 0).unixMilli ≤ toUint64 (now2 0).unixMilli) ∧
      (0 ≤ Since env.start (now1 1) → Since env.start (now1 1) ≤ Since env.start (now2 1) →
        Since env.start (now2 1) < (2 ^ 32 - 1) * Second →
        toUint32 (DurationSeconds (Since env.start (now1 1))) ≤
          toUint32 (DurationSeconds (Since env.start (now2 1)))) := by
  refine ⟨main_clientConfigs env, rfl, ?_, ?_, ?_, ?_⟩
  · intro h0 hb
    have hb2 : Since env.start (now1 1) < 2 ^ 32 * Second := lt_of_lt_of_le hb (by decide)
    obtain ⟨hu, hlo, hhi⟩ := uptime_floor h0 hb
    rw [hu, wholeSecondsUptime_eq _ _ h0 hb2]
    have hsec0 : 0 ≤ Since env.start (now1 1) / Second := Int.ediv_nonneg h0 (by decide)
    omega
  · intro h0 hb
    have hb1 : Since env.start (now1 1) < (2 ^ 32 - 1) * Second :=
      lt_of_lt_of_le hb (by decide)
    have hb2 : Since env.start (now1 1) < 2 ^ 32 * Second := lt_of_lt_of_le hb (by decide)
    obtain ⟨hu, hlo, _⟩ := uptime_floor h0 hb1
    have hlt := durationSeconds_lt_succ h0 hb
    have hfl : ⌊DurationSeconds (Since env.start (now1 1))⌋ =
        Since env.start (now1 1) / Second := by
      rw [Int.floor_eq_iff]
      refine ⟨(durationSeconds_bounds h0 hb2).1, ?_⟩
      have := hlt
      push_cast at this ⊢
      exact this
    rw [hu, wholeSecondsUptime_eq _ _ h0 hb2, hfl]
  · intro h0 hle h63
    unfold toUint64
    have h2 : (now2 0).unixMilli < 2 ^ 64 := lt_trans h63 (by decide)
    rw [Int.emod_eq_of_lt h0 (lt_of_le_of_lt hle h2),
      Int.emod_eq_of_lt (le_trans h0 hle) h2]
    exact Int.toNat_le_toNat hle
  · intro h0 hle hb
    have hb1 : Since env.start (now1 1) < (2 ^ 32 - 1) * Second := lt_of_le_of_lt hle hb
    have hb2 : Since env.start (now2 1) < 2 ^ 32 * Second := lt_of_lt_of_le hb (by decide)
    obtain ⟨hu1, _, _⟩ := uptime_floor h0 hb1
    obtain ⟨hu2, _, _⟩ := uptime_floor (le_trans h0 hle) hb
    rw [hu1, hu2]
    exact Int.toNat_le_toNat (Int.floor_mono (durationSeconds_mono h0 hle hb2))

/-- C8, in the sample process: 90.5 seconds after `start` the `Uptime` is 90, and it does not
decrease between that invocation and one 120 seconds after `start`. -/
theorem C8_heartbeat_ping_witness :
    (0 ≤ Since sampleEnv.start (earlyReading 1) ∧
        Since sampleEnv.start (earlyReading 1) < 2 ^ 24 * Second ∧
        Since sampleEnv.start (earlyReading 1) ≤ Since sampleEnv.start (laterReading 1) ∧
        Since sampleEnv.start (laterReading 1) < (2 ^ 32 - 1) * Second) ∧
      toUint32 (DurationSeconds (Since sampleEnv.start (earlyReading 1))) =
        wholeSecondsUptime sampleEnv.start (earlyReading 1) ∧
      wholeSecondsUptime sampleEnv.start (earlyReading 1) = 90 ∧
      toUint32 (DurationSeconds (Since sampleEnv.start (earlyReading 1))) ≤
        toUint32 (DurationSeconds (Since sampleEnv.start (laterReading 1))) ∧
      toUint64 (earlyReading 0).unixMilli ≤ toUint64 (laterReading 0).unixMilli :=
  ⟨by decide,
    (C8_heartbeat_ping sampleEnv earlyReading laterReading).2.2.2.1 (by decide) (by decide),
    by decide,
    (C8_heartbeat_ping sampleEnv earlyReading laterReading).2.2.2.2.2 (by decide) (by decide)
      (by decide),
    (C8_heartbeat_ping sampleEnv earlyReading laterReading).2.2.2.2.1 (by decide) (by decide)
      (by decide)⟩

/-- C8, refuted as first stated: 16777216.999999999 seconds after `start` (elapsed time below
`2^32` seconds) the `Ping` carries `Uptime` 16777217 while the whole seconds elapsed are
16777216; between one millisecond before the Unix epoch and the epoch the `Timestamp`
decreases; and 4294967295.999999999 seconds after `start` the `float64` value is `2^32`, which
`uint32` cannot hold, the `Uptime` (0 here) being smaller than the 4294967295 of an invocation
one second less a nanosecond earlier. -/
theorem C8_uptime_not_whole_seconds :
    (0 ≤ Since sampleEnv.start (lateReading 1) ∧
        Since sampleEnv.start (lateReading 1) < 2 ^ 32 * Second) ∧
      heartbeatFactory sampleEnv.start lateReading =
        .Ping { Timestamp := 1716777216999, Uptime := 16777217 } ∧
      wholeSecondsUptime sampleEnv.start (lateReading 1) = 16777216 ∧
      heartbeatFactory sampleEnv.start lateReading ≠
        .Ping
          { Timestamp := toUint64 (lateReading 0).unixMilli
            Uptime := wholeSecondsUptime sampleEnv.start (lateReading 1) } ∧
      ((beforeEpoch 0).unixMilli ≤ (atEpoch 0).unixMilli ∧
        toUint64 (atEpoch 0).unixMilli < toUint64 (beforeEpoch 0).unixMilli) ∧
      (Since sampleEnv.start (edgeReading 1) ≤ Since sampleEnv.start (edgeReadingLate 1) ∧
        Since sampleEnv.start (edgeReadingLate 1) < 2 ^ 32 * Second ∧
        DurationSeconds (Since sampleEnv.start (edgeReadingLate 1)) = 2 ^ 32 ∧
        toUint32 (DurationSeconds (Since sampleEnv.start (edgeReadingLate 1))) <
          toUint32 (DurationSeconds (Since sampleEnv.start (edgeReading 1)))) := by
  have hlate : Since sampleEnv.start (lateReading 1) = 16777216999999999 := by decide
  have hedgeL : Since sampleEnv.start (edgeReadingLate 1) = 4294967295999999999 := by decide
  have hedge : Since sampleEnv.start (edgeReading 1) = 4294967295000000000 := by decide
  have hup : toUint32 (DurationSeconds 16777216999999999) = 16777217 := by
    rw [seconds_example]
    rw [toUint32_of_range (by norm_num) (by norm_num)]
    have : ⌊(16777217 : ℚ)⌋ = 16777217 := by
      rw [Int.floor_eq_iff]
      norm_num
    rw [this]
    rfl
  have hw : wholeSecondsUptime sampleEnv.start (lateReading 1) = 16777216 := by decide
  have hfac : heartbeatFactory sampleEnv.start lateReading =
      .Ping { Timestamp := 1716777216999, Uptime := 16777217 } := by
    unfold heartbeatFactory
    rw [hlate, hup]
    rfl
  have hedgeUp : toUint32 (DurationSeconds 4294967295999999999) = 0 := by
    rw [edge_seconds_example]
    unfold toUint32
    have : ⌊(4294967296 : ℚ)⌋ = 4294967296 := by
      rw [Int.floor_eq_iff]
      norm_num
    rw [if_pos (by norm_num), this]
    rfl
  have hedge0 : DurationSeconds 4294967295000000000 = 4294967295 := by
    have hs : Int.tdiv 4294967295000000000 Second = 4294967295 := by decide
    have hn : Int.tmod 4294967295000000000 Second = 0 := by decide
    unfold DurationSeconds f64Add f64Div f64OfInt
    simp only [hs, hn]
    rw [f64Round_intCast 4294967295 (by norm_num) (by norm_num)]
    simp only [Int.cast_zero, zero_div, f64Round_zero, add_zero]
    exact f64Round_intCast 4294967295 (by norm_num) (by norm_num)
  have hedgeUp0 : toUint32 (DurationSeconds 4294967295000000000) = 4294967295 := by
    rw [hedge0]
    rw [toUint32_of_range (by norm_num) (by norm_num)]
    have : ⌊(4294967295 : ℚ)⌋ = 4294967295 := by
      rw [Int.floor_eq_iff]
      norm_num
    rw [this]
    rfl
  refine ⟨by decide, hfac, hw, ?_, by decide, by decide, by decide, ?_, ?_⟩
  · rw [hfac, hw]
    decide
  · rw [hedgeL, edge_seconds_example]
    norm_num
  · rw [hedgeL, hedge, hedgeUp, hedgeUp0]
    decide

end Paynetcli
